import Mathlib

/-!
Verification development for the `browser-agent` repository.

This file gives a shallow embedding, in Lean 4, of the parts of the Go
source that the specification talks about:

* `internal/amazon_agent/executor.go` — the orchestrator loop
  (`Agent.ExecuteTask`, lines 1953–2104 of the combined file), the
  product-selection heuristic (`Executor.selectProductByCriteria`,
  lines 302–376), the memory merge (`Agent.updateMemory`, lines
  2106–2119) and the authentication handler
  (`Executor.executeRequestAuth`, lines 871–1051);
* `internal/amazon_agent/planner.go` — the response post-processing of
  `CreatePlan` and `CreateRecoveryPlan`;
* `internal/amazon_agent/validator.go` — `Validator.ValidateProgress`.

Modelling conventions:

* Go's `interface{}` step values / parameter bags become the closed
  dynamic-value type `GoVal`.
* Go `float64` quantities that carry exact decimal data (prices,
  ratings, confidence) are modelled as `Rat`.
* Go maps are modelled as association lists (`List (String × α)`);
  a `nil` map behaves as the empty list.
* Calls to external collaborators (the Gemini oracle, the browser)
  are modelled by environments of oracles: the loop environment
  `ExecEnv` supplies, indexed by call count, the outcome of each
  `ExecuteStep` call, each recovery/replan/validation response, the
  page state, and a clock.  Time is abstract (natural numbers, one
  reading per loop iteration); `time.Since(start) > d` is encoded as
  `start + d < now`.
* A handler mutating the shared `*AgentMemory` through the executor's
  pointer is modelled by the `memEffect` field of a `StepOutcome`,
  which the loop applies to its memory at every `ExecuteStep` call.
* JSON decoding by `encoding/json` is kept abstract: the planner and
  validator models are parameterised by a `decode` function, and the
  theorems quantify over it.
-/

/-- Dynamic Go value (`interface{}`) as it occurs in `Step.Value` and in
`Step.Parameters` / `ExecutionResult.Data` bags. -/
inductive GoVal where
  | str (v : String)
  | num (v : Rat)
  | boolean (v : Bool)
  | null
deriving DecidableEq, Repr

/-- Struct `Step` from planner.go (lines 20–27): one planned action. -/
structure Step where
  action : String
  description : String
  target : String
  value : GoVal
  parameters : List (String × GoVal)
  critical : Bool
deriving DecidableEq, Repr

/-- Struct `Plan` from planner.go (lines 16–18): an ordered sequence of steps. -/
structure Plan where
  steps : List Step
deriving DecidableEq, Repr

/-- Struct `ExecutedStep` from planner.go (lines 62–67): the record appended to
the audit log after a loop-level execution attempt.  The error is
`Option String` (`nil` error = `none`); the timestamp is the abstract
clock value of the iteration. -/
structure ExecutedStep where
  step : Step
  success : Bool
  error : Option String
  timestamp : Nat
deriving DecidableEq, Repr

/-- Struct `AgentMemory` from executor.go (lines 1910–1917). -/
structure AgentMemory where
  productURLs : List String
  selectedProduct : String
  cartItems : List String
  currentPage : String
  userCredentials : List (String × String)
  sessionData : List (String × GoVal)
deriving DecidableEq, Repr

/-- The fresh memory built in `NewAgent` (executor.go lines 1936–1941). -/
def emptyMemory : AgentMemory :=
  { productURLs := [], selectedProduct := "", cartItems := [],
    currentPage := "", userCredentials := [], sessionData := [] }

/-- Struct `PageState` as returned by `browser.GetPageState`. -/
structure PageState where
  url : String
  title : String
  content : String
deriving DecidableEq, Repr

/-- Struct `ValidationResult` from validator.go (lines 16–21). -/
structure ValidationResult where
  isComplete : Bool
  needsReplanning : Bool
  message : String
  confidence : Rat
deriving DecidableEq, Repr

/-- Struct `Config` from internal/config/config.go (lines 5–13); durations in
abstract time units. -/
structure Config where
  maxSteps : Nat
  stepTimeout : Nat
  totalTimeout : Nat
  headless : Bool
  slowMo : Rat
  maxRetries : Nat
  retryDelay : Nat
deriving DecidableEq, Repr

/-- Defaults of `NewConfig` (config.go lines 15–24), times in seconds. -/
def defaultConfig : Config :=
  { maxSteps := 100, stepTimeout := 30, totalTimeout := 600,
    headless := false, slowMo := 100, maxRetries := 3, retryDelay := 2 }

/-- Go string lowercasing (`strings.ToLower`), restricted to the
per-character mapping. -/
def toLowerStr (s : String) : String := ⟨s.data.map Char.toLower⟩

/-- Does the character list start with the given pattern list? -/
def listStartsWith : List Char → List Char → Bool
  | _, [] => true
  | [], _ :: _ => false
  | a :: as, b :: bs => a == b && listStartsWith as bs

/-- Does the pattern occur as a contiguous sublist? -/
def listContainsSub : List Char → List Char → Bool
  | [], pat => pat.isEmpty
  | s :: rest, pat => listStartsWith (s :: rest) pat || listContainsSub rest pat

/-- Go `strings.Contains s pat`: `pat` occurs as a substring of `s`. -/
def strContains (s pat : String) : Bool := listContainsSub s.data pat.data

/-- Value of a list of decimal digit characters. -/
def digitsVal (cs : List Char) : Nat :=
  cs.foldl (fun a c => a * 10 + (c.toNat - 48)) 0

/-- The leading-float parse performed by `fmt.Sscanf(s, "%f", &x)`:
skip leading spaces, optional sign, then decimal digits with an
optional fractional part; fails (`none`) when no digit is found, which
is how a non-numeric price such as `"N/A"` is rejected. -/
def parseLeadingFloat (s : String) : Option Rat :=
  let cs := s.data.dropWhile (fun c => c = ' ')
  let signed : Bool × List Char :=
    match cs with
    | '-' :: rest => (true, rest)
    | '+' :: rest => (false, rest)
    | _ => (false, cs)
  let intPart := signed.2.takeWhile Char.isDigit
  let rest := signed.2.dropWhile Char.isDigit
  let fracPart : List Char :=
    match rest with
    | '.' :: r2 => r2.takeWhile Char.isDigit
    | _ => []
  if intPart.isEmpty && fracPart.isEmpty then none
  else
    let k := fracPart.length
    let mantissa : Int := (digitsVal intPart * 10 ^ k + digitsVal fracPart : Nat)
    some (mkRat (if signed.1 then -mantissa else mantissa) (10 ^ k))

/-- The price a candidate contributes to the cheapest-selection loop:
`var price float64` stays `0` when `Sscanf` fails (executor.go lines
361–363). -/
def priceValue (s : String) : Rat := (parseLeadingFloat s).getD 0

/-- One product candidate as extracted by the page script in
`executeSelectProduct` (executor.go lines 185–220): the price is the
raw string scraped from the page, the rating the number recovered from
the rating text. -/
structure Product where
  title : String
  price : String
  rating : Rat
deriving DecidableEq, Repr

/-- The rating loop of `selectProductByCriteria` (executor.go lines
329–347): running `(maxRating, maxIndex)` accumulator, updated when
`rating >= 4.0 && rating > maxRating`. -/
def scanRating : List Product → Nat → Rat → Nat → Rat × Nat
  | [], _, m, j => (m, j)
  | p :: ps, i, m, j =>
    if 4 ≤ p.rating ∧ m < p.rating then scanRating ps (i + 1) p.rating i
    else scanRating ps (i + 1) m j

/-- The cheapest loop of `selectProductByCriteria` (executor.go lines
357–368): running `(minPrice, minIndex)` accumulator starting at
`(-1, 0)`, updated when `price > 0 && (minPrice < 0 || price < minPrice)`. -/
def scanPrice : List Product → Nat → Rat → Nat → Rat × Nat
  | [], _, m, j => (m, j)
  | p :: ps, i, m, j =>
    if 0 < priceValue p.price ∧ (m < 0 ∨ priceValue p.price < m) then
      scanPrice ps (i + 1) (priceValue p.price) i
    else scanPrice ps (i + 1) m j

/-- Function `Executor.selectProductByCriteria` (executor.go lines 302–376).
The Go `if` chain returns early; a keyword block whose inner length
guard fails falls through to the next block, which the conjunction in
each branch condition reproduces. -/
def selectProductByCriteria (products : List Product) (criteria : String) : Nat :=
  let cl := toLowerStr criteria
  if cl = "" then 0
  else if strContains cl "first" || strContains cl "1st" then 0
  else if (strContains cl "second" || strContains cl "2nd") && decide (1 < products.length) then 1
  else if (strContains cl "third" || strContains cl "3rd") && decide (2 < products.length) then 2
  else if strContains cl "rating" || strContains cl "rated" || strContains cl "stars" || strContains cl "star" then
    let mj := scanRating products 0 0 0
    if 4 ≤ mj.1 then mj.2 else 0
  else if strContains cl "cheap" || strContains cl "low price" || strContains cl "lowest" then
    let mj := scanPrice products 0 (-1) 0
    if 0 < mj.1 then mj.2 else 0
  else 0

/-- Go `unicode.IsSpace` restricted to ASCII whitespace, as
`strings.TrimSpace` applies it to the oracle responses. -/
def isSpaceGo (c : Char) : Bool :=
  c = ' ' || c = '\t' || c = '\n' || c = '\r' || c = '\x0b' || c = '\x0c'

/-- Go `strings.TrimSpace` on the character list. -/
def trimSpaceList (cs : List Char) : List Char :=
  ((cs.dropWhile isSpaceGo).reverse.dropWhile isSpaceGo).reverse

/-- Go `strings.TrimSpace`. -/
def trimSpaceGo (s : String) : String := ⟨trimSpaceList s.data⟩

/-- Go `strings.HasPrefix`. -/
def hasPrefixGo (s pat : String) : Bool := listStartsWith s.data pat.data

/-- Go `strings.TrimSuffix`: removes one trailing copy of `pat` when
present, otherwise leaves the string unchanged. -/
def trimSuffixGo (s pat : String) : String :=
  if listStartsWith s.data.reverse pat.data.reverse then
    ⟨s.data.take (s.data.length - pat.data.length)⟩
  else s

/-- Drop the first `n` characters (`strings.TrimPrefix` under a
`HasPrefix` guard). -/
def dropGo (s : String) (n : Nat) : String := ⟨s.data.drop n⟩

/-- The code-fence stripping shared by `CreatePlan`, `Replan`,
`CreateRecoveryPlan` (planner.go lines 182–191, 251–260, 333–342) and
`ValidateProgress` (validator.go lines 85–94): trim space, remove a
leading fence marker of seven or three characters, remove a trailing
fence marker, trim space again. -/
def stripCodeFence (s : String) : String :=
  let r := trimSpaceGo s
  if hasPrefixGo r "```json" then trimSpaceGo (trimSuffixGo (dropGo r 7) "```")
  else if hasPrefixGo r "```" then trimSpaceGo (trimSuffixGo (dropGo r 3) "```")
  else r

/-- Response handling of `Planner.CreatePlan` (planner.go lines
177–202), parameterised by the `encoding/json` decode of the stripped
response (`none` = unmarshal error).  `gen` is the oracle outcome of
`llm.Generate` (`none` = transport error).  The json error text is
abstracted to a fixed tag. -/
def createPlanResult (decode : String → Option Plan) (gen : Option String) : Except String Plan :=
  match gen with
  | none => .error "generate plan"
  | some response =>
    match decode (stripCodeFence response) with
    | none => .error "parse plan"
    | some plan => if plan.steps.length = 0 then .error "plan has no steps" else .ok plan

/-- Response handling of `Planner.CreateRecoveryPlan` (planner.go lines
328–349).  Unlike `createPlanResult` there is no emptiness check after
the unmarshal: a decoded plan is returned as-is. -/
def createRecoveryPlanResult (decode : String → Option Plan) (gen : Option String) : Except String Plan :=
  match gen with
  | none => .error "generate recovery plan"
  | some response =>
    match decode (stripCodeFence response) with
    | none => .error "parse recovery plan"
    | some plan => .ok plan

/-- The slice of the audit log that `CreateRecoveryPlan` summarises in
its prompt: `ctx.ExecutedSteps[max(0, len-5):]` (planner.go line 293). -/
def recoveryHistorySlice (es : List ExecutedStep) : List ExecutedStep :=
  es.drop (es.length - 5)

/-- The decode that `encoding/json` performs on the one response used in
the recovery-plan counterexample: a JSON object with an empty steps
array unmarshals to a plan with zero steps; other inputs are mapped to
a parse failure, which is all the counterexample needs. -/
def emptyStepsDecoder : String → Option Plan :=
  fun s => if s = "\x7b\"steps\": []\x7d" then some ⟨[]⟩ else none

/-- Default judgment returned by `ValidateProgress` when `llm.Generate`
fails (validator.go lines 76–83). -/
def validationUnavailable : ValidationResult :=
  ⟨false, false, "Validation unavailable, continuing", mkRat 1 2⟩

/-- Default judgment returned by `ValidateProgress` when the response
does not unmarshal (validator.go lines 97–104). -/
def validationUnparsable : ValidationResult :=
  ⟨false, false, "Continuing with plan", mkRat 1 2⟩

/-- Outcome handling of `Validator.ValidateProgress` (validator.go lines
75–107): the returned pair is `(judgment, error)`; the Go function
returns a `nil` error on every path. -/
def validateProgress (decode : String → Option ValidationResult) (gen : Option String) :
    ValidationResult × Option String :=
  match gen with
  | none => (validationUnavailable, none)
  | some response =>
    match decode (stripCodeFence response) with
    | none => (validationUnparsable, none)
    | some r => (r, none)

/-- Struct `ExecutionResult` from executor.go (lines 22–27). -/
structure ExecutionResult where
  success : Bool
  message : String
  data : Option (List (String × GoVal))
  nextStep : Option Step
deriving DecidableEq, Repr

/-- Selector list for the email field in `executeRequestAuth`
(executor.go lines 892–898). -/
def emailSelectors : List String :=
  ["#ap_email", "input[name=\x27email\x27]", "input[type=\x27email\x27]",
   "input[name=\x27username\x27]", "#username"]

/-- Selector list for the password field (executor.go lines 953–958). -/
def passwordSelectors : List String :=
  ["#ap_password", "input[name=\x27password\x27]", "input[type=\x27password\x27]", "#password"]

/-- Environment of `executeRequestAuth`: the interactive credential
inputs and the behaviour of the browser per selector.  `waitOk` models
`WaitForSelector` succeeding, `typeOk` models `Type` succeeding;
`passwordInput = none` models a `term.ReadPassword` error. -/
structure AuthEnv where
  emailInput : String
  passwordInput : Option String
  waitOk : String → Bool
  typeOk : String → Bool
  clickOk : String → Bool
  pressOk : String → Bool
  page : PageState

/-- First selector in the list that the browser makes available
(`WaitForSelector` succeeds) and that accepts the subsequent action:
the probing pattern of the loops in `executeRequestAuth`. -/
def probeSelectors (avail use : String → Bool) : List String → Option String
  | [] => none
  | sel :: rest => if avail sel && use sel then some sel else probeSelectors avail use rest

/-- The auth-type extraction at the top of `executeRequestAuth`
(executor.go lines 874–881).  A missing key compares unequal to `""`
as a `nil` interface but then fails the comma-ok lookup; a non-string
value fails the type assertion; both leave the default `"full"`. -/
def authTypeOf (step : Step) : String :=
  match step.parameters.lookup "type" with
  | some (GoVal.str v) => if v = "" then "full" else v
  | _ => "full"

/-- Map-style assignment on the credential association list
(`e.memory.UserCredentials["email"] = email`). -/
def setAssoc : List (String × String) → String → String → List (String × String)
  | [], k, v => [(k, v)]
  | (k', v') :: rest, k, v =>
    if k' = k then (k, v) :: rest else (k', v') :: setAssoc rest k v

/-- Handler `Executor.executeRequestAuth` (executor.go lines 871–1051), reduced
to its state effects and outcome.  The handler writes the entered email
into the shared memory's `UserCredentials` as soon as a selector
accepts it (line 917) — a direct memory mutation during step
execution.  The continue-button and submit phases only drive the
browser and the terminal, so they leave no trace in this model; the
handler returns a success result with no declared data on every path
that does not fail reading or placing the password. -/
def executeRequestAuth (step : Step) (mem : AgentMemory) (env : AuthEnv) :
    AgentMemory × Except String ExecutionResult :=
  let authType := authTypeOf step
  let email := trimSpaceGo env.emailInput
  let memAfterEmail :=
    if (authType = "email" || authType = "full") && email != "" then
      match probeSelectors env.waitOk env.typeOk emailSelectors with
      | some _ => { mem with userCredentials := setAssoc mem.userCredentials "email" email }
      | none => mem
    else mem
  if authType = "password" || authType = "full" then
    match env.passwordInput with
    | none => (memAfterEmail, .error "read password")
    | some password =>
      if password ≠ "" ∧ probeSelectors env.waitOk env.typeOk passwordSelectors = none then
        (memAfterEmail, .error "password field not found")
      else
        (memAfterEmail, .ok ⟨true, "Login credentials entered and submitted", none, none⟩)
  else (memAfterEmail, .ok ⟨true, "Login credentials entered and submitted", none, none⟩)

/-- Outcome of one call to `Executor.ExecuteStep` as the loop observes
it: the direct mutations the handler performs on the shared
`*AgentMemory` (for instance `executeRequestAuth`, executor.go line
917), and the returned `(result.Data, error)` pair — `Except.error`
is a non-nil Go error, `Except.ok none` a success without declared
data. -/
structure StepOutcome where
  memEffect : AgentMemory → AgentMemory
  result : Except String (Option (List (String × GoVal)))

/-- Oracle environment driving one `ExecuteTask` run.  `stepOutcome` is
indexed by the number of prior `ExecuteStep` calls, `recovery`,
`validation` and `replanning` by the number of prior calls of the
respective planner/validator entry point (`none` = the call returned an
error, and for `validation` also a `nil` result).  `pageState` and
`time` are indexed by the loop iteration. -/
structure ExecEnv where
  stepOutcome : Nat → StepOutcome
  recovery : Nat → Option Plan
  validation : Nat → Option ValidationResult
  replanning : Nat → Option Plan
  pageState : Nat → PageState
  time : Nat → Nat

/-- Arguments of one `CreateRecoveryPlan` call as issued by the loop
(executor.go line 2006): the execution context's task description and
full audit log, the observed page state, and `err.Error()`. -/
structure RecoveryRequest where
  taskDescription : String
  executedSteps : List ExecutedStep
  page : PageState
  errorMsg : String
deriving DecidableEq, Repr

/-- Arguments of one `Replan` call as issued by the loop (executor.go
line 2070): the execution context (task description and full audit
log) and the validator's message. -/
structure ReplanRequest where
  taskDescription : String
  executedSteps : List ExecutedStep
  reason : String
deriving DecidableEq, Repr

/-- The loop's working state: `ExecutionContext` (planner.go lines
54–60) plus the local variables of `ExecuteTask`
(`consecutiveFailures`, `lastValidationTime`) and instrumentation
counters/logs for the oracle calls made so far.  `lastValidationTime =
none` models the zero `time.Time`, whose `time.Since` is always larger
than the cooldown. -/
structure LoopState where
  taskDescription : String
  plan : Plan
  executedSteps : List ExecutedStep
  currentStepNum : Nat
  memory : AgentMemory
  consecutiveFailures : Nat
  lastValidationTime : Option Nat
  execCalls : Nat
  recoveryCalls : Nat
  validationCalls : Nat
  replanCalls : Nat
  recoveryRequests : List RecoveryRequest
  replanRequests : List ReplanRequest
  iter : Nat
deriving DecidableEq, Repr

/-- Struct `TaskResult` from executor.go (lines 1919–1926); the Go error is a
message string, duration is abstract elapsed time. -/
structure TaskResult where
  success : Bool
  stepsExecuted : Nat
  duration : Nat
  finalState : String
  error : Option String
  memory : AgentMemory
deriving DecidableEq, Repr

/-- Result of one iteration of the `for` loop: a terminal `TaskResult`
(paired with the loop state at the return, for the theorems) or the
state for the next iteration. -/
inductive IterResult where
  | done (result : TaskResult) (final : LoopState)
  | next (s : LoopState)
deriving DecidableEq, Repr

/-- The loop state an iteration ends in, terminal or not. -/
def stateOf : IterResult → LoopState
  | .done _ fin => fin
  | .next s => s

/-- Constant `validationInterval := 5` (executor.go line 1956).  The legacy
duplicate of the loop in agent.go line 48 uses 3 instead. -/
def validationInterval : Nat := 5

/-- Constant `maxConsecutiveFailures := 3` (executor.go line 1958). -/
def maxConsecutiveFailures : Nat := 3

/-- The validation cooldown `time.Since(lastValidationTime) >
10*time.Second` (executor.go line 2049), in abstract seconds; the zero
time (`none`) always passes. -/
def cooldownOk (now : Nat) (lastVal : Option Nat) : Bool :=
  match lastVal with
  | none => true
  | some t => decide (t + 10 < now)

/-- Zero value handed to `List.getD`; the loop guard keeps the index in
range, so it is never observed. -/
def defaultStep : Step := ⟨"", "", "", GoVal.null, [], false⟩

/-- Lookup `lookupStr data key`: the comma-ok string type assertion
`data[key].(string)`. -/
def lookupStr (data : List (String × GoVal)) (key : String) : Option String :=
  match data.lookup key with
  | some (GoVal.str v) => some v
  | _ => none

/-- Function `Agent.updateMemory` (executor.go lines 2106–2119). -/
def updateMemory (m : AgentMemory) (data : List (String × GoVal)) : AgentMemory :=
  let m1 := match lookupStr data "product_url" with
    | some url => { m with productURLs := m.productURLs ++ [url] }
    | none => m
  let m2 := match lookupStr data "selected_product" with
    | some sel => { m1 with selectedProduct := sel }
    | none => m1
  let m3 := match lookupStr data "cart_item" with
    | some item => { m2 with cartItems := m2.cartItems ++ [item] }
    | none => m2
  match lookupStr data "current_page" with
  | some page => { m3 with currentPage := page }
  | none => m3

/-- The two post-loop returns (executor.go lines 2087–2103): the
max-steps check wins whenever `CurrentStepNum >= MaxSteps`, also when
the plan was simultaneously exhausted. -/
def exitResult (cfg : Config) (now st : Nat) (s : LoopState) : TaskResult :=
  if cfg.maxSteps ≤ s.currentStepNum then
    ⟨false, s.executedSteps.length, now - st, "", some "max steps exceeded", s.memory⟩
  else
    ⟨true, s.executedSteps.length, now - st, "All planned steps completed", none, s.memory⟩

/-- The tail of a loop iteration from `executionContext.CurrentStepNum++`
on (executor.go lines 2047–2084): advance the index, then validate when
the surviving `err` is nil, the advanced index is a multiple of the
interval, and the cooldown has elapsed.  A judgment (non-nil result)
refreshes `lastValidationTime`; completion returns, replanning swaps
the plan and resets the index, validation errors are logged and
ignored. -/
def afterStep (cfg : Config) (env : ExecEnv) (st now : Nat) (s : LoopState) (errNil : Bool) : IterResult :=
  let s1 := { s with currentStepNum := s.currentStepNum + 1 }
  if errNil = true ∧ s1.currentStepNum % validationInterval = 0 ∧ cooldownOk now s1.lastValidationTime = true then
    match env.validation s1.validationCalls with
    | none => .next { s1 with validationCalls := s1.validationCalls + 1, iter := s1.iter + 1 }
    | some vr =>
      let s2 := { s1 with validationCalls := s1.validationCalls + 1, lastValidationTime := some now }
      if vr.isComplete then
        .done ⟨true, s2.executedSteps.length, now - st, vr.message, none, s2.memory⟩ s2
      else if vr.needsReplanning then
        let s3 := { s2 with
                    replanCalls := s2.replanCalls + 1,
                    replanRequests := s2.replanRequests ++ [(⟨s2.taskDescription, s2.executedSteps, vr.message⟩ : ReplanRequest)] }
        match env.replanning s2.replanCalls with
        | none => .next { s3 with iter := s3.iter + 1 }
        | some newPlan => .next { s3 with plan := newPlan, currentStepNum := 0, iter := s3.iter + 1 }
      else .next { s2 with iter := s2.iter + 1 }
  else .next { s1 with iter := s1.iter + 1 }

/-- The critical/non-critical handling a failed step falls through to
when no recovery plan was obtained (executor.go lines 2017–2036): a
critical step is retried through a second `ExecuteStep` call — on
retry success `err` is cleared and `consecutiveFailures` reset, but the
record already appended to `ExecutedSteps` is NOT updated, because the
Go code mutates a local copy of the struct after appending it; on retry
failure the task terminates.  A non-critical failure just proceeds to
the next step with `err` still set. -/
def criticalOrSkip (cfg : Config) (env : ExecEnv) (st now : Nat) (s : LoopState) (step : Step) : IterResult :=
  if step.critical then
    let oc := env.stepOutcome s.execCalls
    let s2 := { s with execCalls := s.execCalls + 1, memory := oc.memEffect s.memory }
    match oc.result with
    | .ok _ => afterStep cfg env st now { s2 with consecutiveFailures := 0 } true
    | .error rmsg =>
      .done ⟨false, s2.executedSteps.length, now - st, "",
             some ("critical step failed after retry: " ++ rmsg), s2.memory⟩ s2
  else afterStep cfg env st now s false

/-- One iteration of the `for` loop of `Agent.ExecuteTask` (executor.go
lines 1975–2085), including the loop condition and the post-loop
returns: timeout check, `ExecuteStep`, appending the `ExecutedStep`
record, failure handling (consecutive-failure recovery, then
critical/non-critical handling), success handling (memory merge), then
the advance/validation tail. -/
def loopIter (cfg : Config) (env : ExecEnv) (st : Nat) (s : LoopState) : IterResult :=
  if s.currentStepNum < s.plan.steps.length ∧ s.currentStepNum < cfg.maxSteps then
    let now := env.time s.iter
    if st + cfg.totalTimeout < now then
      .done ⟨false, s.executedSteps.length, now - st, "", some "total timeout exceeded", s.memory⟩ s
    else
      let step := s.plan.steps.getD s.currentStepNum defaultStep
      let oc := env.stepOutcome s.execCalls
      let mem1 := oc.memEffect s.memory
      match oc.result with
      | .ok data =>
        let es := s.executedSteps ++ [⟨step, true, none, now⟩]
        let mem2 := match data with
          | some d => updateMemory mem1 d
          | none => mem1
        afterStep cfg env st now
          { s with executedSteps := es, memory := mem2,
                   consecutiveFailures := 0, execCalls := s.execCalls + 1 } true
      | .error msg =>
        let es := s.executedSteps ++ [⟨step, false, some msg, now⟩]
        let cf := s.consecutiveFailures + 1
        let s1 := { s with executedSteps := es, memory := mem1,
                           consecutiveFailures := cf, execCalls := s.execCalls + 1 }
        if maxConsecutiveFailures ≤ cf then
          let s2 := { s1 with
                      recoveryCalls := s1.recoveryCalls + 1,
                      recoveryRequests := s1.recoveryRequests ++
                        [(⟨s1.taskDescription, es, env.pageState s.iter, msg⟩ : RecoveryRequest)] }
          match env.recovery s1.recoveryCalls with
          | some rplan =>
            .next { s2 with plan := rplan, currentStepNum := 0,
                            consecutiveFailures := 0, iter := s2.iter + 1 }
          | none => criticalOrSkip cfg env st now s2 step
        else criticalOrSkip cfg env st now s1 step
  else .done (exitResult cfg (env.time s.iter) st s) s

/-- Fuelled iteration of `loopIter`; `none` = fuel exhausted before the
loop returned. -/
def runLoop (cfg : Config) (env : ExecEnv) (st : Nat) : Nat → LoopState → Option (TaskResult × LoopState)
  | 0, _ => none
  | fuel + 1, s =>
    match loopIter cfg env st s with
    | .done r fin => some (r, fin)
    | .next s' => runLoop cfg env st fuel s'

/-- The `ExecutionContext` initialisation of `ExecuteTask` (executor.go
lines 1967–1973) together with zeroed local variables and
instrumentation. -/
def initState (taskDescription : String) (plan : Plan) (mem : AgentMemory) : LoopState :=
  { taskDescription := taskDescription, plan := plan, executedSteps := [],
    currentStepNum := 0, memory := mem, consecutiveFailures := 0,
    lastValidationTime := none, execCalls := 0, recoveryCalls := 0,
    validationCalls := 0, replanCalls := 0, recoveryRequests := [],
    replanRequests := [], iter := 0 }

/-- Function `Agent.ExecuteTask` from the initial plan on (executor.go lines
1975–2104): the loop run from the fresh execution context.  `st` is the
`startTime` reading. -/
def executeTaskFromPlan (cfg : Config) (env : ExecEnv) (st fuel : Nat)
    (taskDescription : String) (plan : Plan) (mem : AgentMemory) :
    Option (TaskResult × LoopState) :=
  runLoop cfg env st fuel (initState taskDescription plan mem)

/-! ## Theorems -/

/-- C7 counterexample: the oracle response holding a JSON object with an
empty steps array is parsed by `CreateRecoveryPlan` into a zero-step
plan and returned with a nil error — the Orchestrator receives a usable
empty Plan — while `CreatePlan` rejects the identical response with
"plan has no steps". -/
theorem C7_counterexample :
    createRecoveryPlanResult emptyStepsDecoder (some "\x7b\"steps\": []\x7d") = Except.ok ⟨[]⟩ ∧
    (Plan.mk []).steps.length = 0 ∧
    createPlanResult emptyStepsDecoder (some "\x7b\"steps\": []\x7d") = Except.error "plan has no steps" := by
  refine ⟨rfl, rfl, rfl⟩

/-- C7 amended: `CreateRecoveryPlan` returns an error exactly when the
oracle call fails or the fence-stripped response does not parse; a
parsed plan is returned as-is, with no emptiness check, so a zero-step
plan is passed back to the Orchestrator (unlike `CreatePlan`). -/
theorem C7_amended (decode : String → Option Plan) (gen : Option String) :
    (gen = none → createRecoveryPlanResult decode gen = Except.error "generate recovery plan") ∧
    (∀ response, gen = some response → decode (stripCodeFence response) = none →
      createRecoveryPlanResult decode gen = Except.error "parse recovery plan") ∧
    (∀ response plan, gen = some response → decode (stripCodeFence response) = some plan →
      createRecoveryPlanResult decode gen = Except.ok plan) := by
  refine ⟨fun h => ?_, fun response h hd => ?_, fun response plan h hd => ?_⟩
  · subst h; rfl
  · subst h; simp [createRecoveryPlanResult, hd]
  · subst h; simp [createRecoveryPlanResult, hd]

/-- C7 amended, witnessed at a concrete decoder and response with a
parse failure. -/
theorem C7_amended_witness :
    createRecoveryPlanResult (fun _ => none) (some "garbage") = Except.error "parse recovery plan" :=
  (C7_amended (fun _ => none) (some "garbage")).2.1 "garbage" rfl rfl

/-- C8: `ValidateProgress` never propagates an error — the error
component is nil for every oracle outcome — and when the oracle call
fails or its response does not parse, the judgment is the safe default
with `IsComplete = false` and `NeedsReplanning = false`. -/
theorem C8_validate_progress_safe (decode : String → Option ValidationResult) (gen : Option String) :
    (validateProgress decode gen).2 = none ∧
    (gen = none →
      (validateProgress decode gen).1.isComplete = false ∧
      (validateProgress decode gen).1.needsReplanning = false) ∧
    (∀ response, gen = some response → decode (stripCodeFence response) = none →
      (validateProgress decode gen).1.isComplete = false ∧
      (validateProgress decode gen).1.needsReplanning = false) := by
  refine ⟨?_, fun h => ?_, fun response h hd => ?_⟩
  · cases gen with
    | none => rfl
    | some response =>
      cases hd : decode (stripCodeFence response) <;> simp [validateProgress, hd]
  · subst h; exact ⟨rfl, rfl⟩
  · subst h; simp [validateProgress, hd, validationUnparsable]

/-- C8 witnessed at a concrete decoder that fails to parse a concrete
response. -/
theorem C8_validate_progress_safe_witness :
    (validateProgress (fun _ => none) (some "not json")).2 = none ∧
    (validateProgress (fun _ => none) (some "not json")).1.isComplete = false :=
  ⟨(C8_validate_progress_safe (fun _ => none) (some "not json")).1,
   ((C8_validate_progress_safe (fun _ => none) (some "not json")).2.2 "not json" rfl rfl).1⟩

theorem scanRating_fst_mono (ps : List Product) (i : Nat) (m : Rat) (j : Nat) :
    m ≤ (scanRating ps i m j).1 := by
  induction ps generalizing i m j with
  | nil => exact le_refl m
  | cons p ps ih =>
    by_cases h : 4 ≤ p.rating ∧ m < p.rating
    · simp only [scanRating, if_pos h]
      exact le_trans h.2.le (ih (i + 1) p.rating i)
    · simp only [scanRating, if_neg h]
      exact ih (i + 1) m j

theorem scanRating_fst_ub (ps : List Product) (i : Nat) (m : Rat) (j : Nat) :
    ∀ p ∈ ps, 4 ≤ p.rating → p.rating ≤ (scanRating ps i m j).1 := by
  induction ps generalizing i m j with
  | nil => exact fun p hmem _ => absurd hmem (List.not_mem_nil p)
  | cons q ps ih =>
    intro p hmem hq
    by_cases h : 4 ≤ q.rating ∧ m < q.rating
    · simp only [scanRating, if_pos h]
      rcases List.mem_cons.mp hmem with heq | hmem'
      · exact heq ▸ scanRating_fst_mono ps (i + 1) q.rating i
      · exact ih (i + 1) q.rating i p hmem' hq
    · simp only [scanRating, if_neg h]
      rcases List.mem_cons.mp hmem with heq | hmem'
      · subst heq
        have hle : p.rating ≤ m := not_lt.mp (fun hc => h ⟨hq, hc⟩)
        exact le_trans hle (scanRating_fst_mono ps (i + 1) m j)
      · exact ih (i + 1) m j p hmem' hq

theorem scanRating_realize (ps : List Product) (i : Nat) (m : Rat) (j : Nat) :
    scanRating ps i m j = (m, j) ∨
    ∃ k, ∃ hk : k < ps.length, (scanRating ps i m j).2 = i + k ∧
      (ps.get ⟨k, hk⟩).rating = (scanRating ps i m j).1 ∧ 4 ≤ (scanRating ps i m j).1 := by
  induction ps generalizing i m j with
  | nil => exact Or.inl rfl
  | cons q ps ih =>
    by_cases h : 4 ≤ q.rating ∧ m < q.rating
    · simp only [scanRating, if_pos h]
      rcases ih (i + 1) q.rating i with heq | ⟨k, hk, h2, h1, h4⟩
      · refine Or.inr ⟨0, Nat.succ_pos _, ?_, ?_, ?_⟩ <;> rw [heq]
        · exact (Nat.add_zero i).symm
        · exact rfl
        · exact h.1
      · exact Or.inr ⟨k + 1, Nat.succ_lt_succ hk, by rw [h2]; omega, h1, h4⟩
    · simp only [scanRating, if_neg h]
      rcases ih (i + 1) m j with heq | ⟨k, hk, h2, h1, h4⟩
      · exact Or.inl heq
      · exact Or.inr ⟨k + 1, Nat.succ_lt_succ hk, by rw [h2]; omega, h1, h4⟩

theorem scanRating_none (ps : List Product) (i : Nat) (m : Rat) (j : Nat) :
    (∀ p ∈ ps, ¬ 4 ≤ p.rating) → scanRating ps i m j = (m, j) := by
  induction ps generalizing i m j with
  | nil => exact fun _ => rfl
  | cons q ps ih =>
    intro hno
    have h : ¬ (4 ≤ q.rating ∧ m < q.rating) :=
      fun hc => hno q (List.mem_cons_self q ps) hc.1
    simp only [scanRating, if_neg h]
    exact ih (i + 1) m j (fun p hp => hno p (List.mem_cons_of_mem q hp))

theorem scanPrice_pos_bound (ps : List Product) (i : Nat) (m : Rat) (j : Nat) :
    0 < m → (scanPrice ps i m j).1 ≤ m ∧ 0 < (scanPrice ps i m j).1 := by
  induction ps generalizing i m j with
  | nil => exact fun hm => ⟨le_refl m, hm⟩
  | cons q ps ih =>
    intro hm
    by_cases h : 0 < priceValue q.price ∧ (m < 0 ∨ priceValue q.price < m)
    · simp only [scanPrice, if_pos h]
      have hlt : priceValue q.price < m := h.2.resolve_left (not_lt.mpr hm.le)
      obtain ⟨h1, h2⟩ := ih (i + 1) (priceValue q.price) i h.1
      exact ⟨le_trans h1 hlt.le, h2⟩
    · simp only [scanPrice, if_neg h]
      exact ih (i + 1) m j hm

theorem scanPrice_fst_ub (ps : List Product) (i : Nat) (m : Rat) (j : Nat) :
    (m = -1 ∨ 0 < m) → ∀ p ∈ ps, 0 < priceValue p.price →
      (scanPrice ps i m j).1 ≤ priceValue p.price ∧ 0 < (scanPrice ps i m j).1 := by
  induction ps generalizing i m j with
  | nil => exact fun _ p hmem _ => absurd hmem (List.not_mem_nil p)
  | cons q ps ih =>
    intro hm p hmem hp
    by_cases h : 0 < priceValue q.price ∧ (m < 0 ∨ priceValue q.price < m)
    · simp only [scanPrice, if_pos h]
      rcases List.mem_cons.mp hmem with heq | hmem'
      · subst heq
        exact scanPrice_pos_bound ps (i + 1) (priceValue p.price) i h.1
      · exact ih (i + 1) (priceValue q.price) i (Or.inr h.1) p hmem' hp
    · simp only [scanPrice, if_neg h]
      rcases List.mem_cons.mp hmem with heq | hmem'
      · subst heq
        rcases hm with hm1 | hm0
        · exact absurd ⟨hp, Or.inl (by rw [hm1]; norm_num)⟩ h
        · have hge : m ≤ priceValue p.price := by
            by_contra hcon
            exact h ⟨hp, Or.inr (not_le.mp hcon)⟩
          obtain ⟨h1, h2⟩ := scanPrice_pos_bound ps (i + 1) m j hm0
          exact ⟨le_trans h1 hge, h2⟩
      · exact ih (i + 1) m j hm p hmem' hp

theorem scanPrice_realize (ps : List Product) (i : Nat) (m : Rat) (j : Nat) :
    scanPrice ps i m j = (m, j) ∨
    ∃ k, ∃ hk : k < ps.length, (scanPrice ps i m j).2 = i + k ∧
      priceValue (ps.get ⟨k, hk⟩).price = (scanPrice ps i m j).1 ∧ 0 < (scanPrice ps i m j).1 := by
  induction ps generalizing i m j with
  | nil => exact Or.inl rfl
  | cons q ps ih =>
    by_cases h : 0 < priceValue q.price ∧ (m < 0 ∨ priceValue q.price < m)
    · simp only [scanPrice, if_pos h]
      rcases ih (i + 1) (priceValue q.price) i with heq | ⟨k, hk, h2, h1, h0⟩
      · refine Or.inr ⟨0, Nat.succ_pos _, ?_, ?_, ?_⟩ <;> rw [heq]
        · exact (Nat.add_zero i).symm
        · exact rfl
        · exact h.1
      · exact Or.inr ⟨k + 1, Nat.succ_lt_succ hk, by rw [h2]; omega, h1, h0⟩
    · simp only [scanPrice, if_neg h]
      rcases ih (i + 1) m j with heq | ⟨k, hk, h2, h1, h0⟩
      · exact Or.inl heq
      · exact Or.inr ⟨k + 1, Nat.succ_lt_succ hk, by rw [h2]; omega, h1, h0⟩

theorem scanPrice_none (ps : List Product) (i : Nat) (m : Rat) (j : Nat) :
    (∀ p ∈ ps, ¬ 0 < priceValue p.price) → scanPrice ps i m j = (m, j) := by
  induction ps generalizing i m j with
  | nil => exact fun _ => rfl
  | cons q ps ih =>
    intro hno
    have h : ¬ (0 < priceValue q.price ∧ (m < 0 ∨ priceValue q.price < m)) :=
      fun hc => hno q (List.mem_cons_self q ps) hc.1
    simp only [scanPrice, if_neg h]
    exact ih (i + 1) m j (fun p hp => hno p (List.mem_cons_of_mem q hp))

theorem strContains_empty_left (pat : String) (hpat : pat.data ≠ []) :
    strContains "" pat = false := by
  unfold strContains listContainsSub
  cases hd : pat.data with
  | nil => exact absurd hd hpat
  | cons a l => simp

theorem contains_ne_empty {c pat : String} (hpat : pat.data ≠ []) (h : strContains c pat = true) :
    c ≠ "" := by
  intro hc
  subst hc
  rw [strContains_empty_left pat hpat] at h
  exact Bool.false_ne_true h

theorem orContains_ne_empty {cl p1 p2 : String} (h1 : p1.data ≠ []) (h2 : p2.data ≠ [])
    (h : (strContains cl p1 || strContains cl p2) = true) : cl ≠ "" := by
  rcases (Bool.or_eq_true _ _).mp h with ha | hb
  · exact contains_ne_empty h1 ha
  · exact contains_ne_empty h2 hb

/-- C9: for every candidate list and criteria string,
`selectProductByCriteria` applies the ordered tie-break rules: ordinal
keywords first; else, for rating criteria, the index of the
highest-rated candidate with rating at least 4.0, falling back to index
0 when none qualifies (over ratings [3.2, 4.6, 4.1] it selects the
index of 4.6); else, for cheapness criteria, the index of the lowest
strictly positive parsed price, non-numeric prices ignored (over prices
[12.50, "N/A", 8.99] it selects the index of 8.99); else index 0. -/
theorem C9_select_product_rules :
    (∀ (ps : List Product) (c : String),
      (strContains (toLowerStr c) "first" || strContains (toLowerStr c) "1st") = true →
      selectProductByCriteria ps c = 0) ∧
    (∀ (ps : List Product) (c : String),
      (strContains (toLowerStr c) "first" || strContains (toLowerStr c) "1st") = false →
      ((strContains (toLowerStr c) "second" || strContains (toLowerStr c) "2nd") && decide (1 < ps.length)) = true →
      selectProductByCriteria ps c = 1) ∧
    (∀ (ps : List Product) (c : String),
      (strContains (toLowerStr c) "first" || strContains (toLowerStr c) "1st") = false →
      ((strContains (toLowerStr c) "second" || strContains (toLowerStr c) "2nd") && decide (1 < ps.length)) = false →
      ((strContains (toLowerStr c) "third" || strContains (toLowerStr c) "3rd") && decide (2 < ps.length)) = true →
      selectProductByCriteria ps c = 2) ∧
    (∀ (ps : List Product) (c : String),
      (strContains (toLowerStr c) "first" || strContains (toLowerStr c) "1st") = false →
      ((strContains (toLowerStr c) "second" || strContains (toLowerStr c) "2nd") && decide (1 < ps.length)) = false →
      ((strContains (toLowerStr c) "third" || strContains (toLowerStr c) "3rd") && decide (2 < ps.length)) = false →
      (strContains (toLowerStr c) "rating" || strContains (toLowerStr c) "rated" ||
       strContains (toLowerStr c) "stars" || strContains (toLowerStr c) "star") = true →
      ((∃ k, ∃ hk : k < ps.length, 4 ≤ (ps.get ⟨k, hk⟩).rating) →
        ∃ hr : selectProductByCriteria ps c < ps.length,
          4 ≤ (ps.get ⟨selectProductByCriteria ps c, hr⟩).rating ∧
          ∀ k (hk : k < ps.length), 4 ≤ (ps.get ⟨k, hk⟩).rating →
            (ps.get ⟨k, hk⟩).rating ≤ (ps.get ⟨selectProductByCriteria ps c, hr⟩).rating) ∧
      ((∀ k (hk : k < ps.length), ¬ 4 ≤ (ps.get ⟨k, hk⟩).rating) →
        selectProductByCriteria ps c = 0)) ∧
    (∀ (ps : List Product) (c : String),
      (strContains (toLowerStr c) "first" || strContains (toLowerStr c) "1st") = false →
      ((strContains (toLowerStr c) "second" || strContains (toLowerStr c) "2nd") && decide (1 < ps.length)) = false →
      ((strContains (toLowerStr c) "third" || strContains (toLowerStr c) "3rd") && decide (2 < ps.length)) = false →
      (strContains (toLowerStr c) "rating" || strContains (toLowerStr c) "rated" ||
       strContains (toLowerStr c) "stars" || strContains (toLowerStr c) "star") = false →
      (strContains (toLowerStr c) "cheap" || strContains (toLowerStr c) "low price" ||
       strContains (toLowerStr c) "lowest") = true →
      ((∃ k, ∃ hk : k < ps.length, 0 < priceValue (ps.get ⟨k, hk⟩).price) →
        ∃ hr : selectProductByCriteria ps c < ps.length,
          0 < priceValue (ps.get ⟨selectProductByCriteria ps c, hr⟩).price ∧
          ∀ k (hk : k < ps.length), 0 < priceValue (ps.get ⟨k, hk⟩).price →
            priceValue (ps.get ⟨selectProductByCriteria ps c, hr⟩).price ≤ priceValue (ps.get ⟨k, hk⟩).price) ∧
      ((∀ k (hk : k < ps.length), ¬ 0 < priceValue (ps.get ⟨k, hk⟩).price) →
        selectProductByCriteria ps c = 0)) ∧
    (∀ (ps : List Product) (c : String),
      (strContains (toLowerStr c) "first" || strContains (toLowerStr c) "1st") = false →
      ((strContains (toLowerStr c) "second" || strContains (toLowerStr c) "2nd") && decide (1 < ps.length)) = false →
      ((strContains (toLowerStr c) "third" || strContains (toLowerStr c) "3rd") && decide (2 < ps.length)) = false →
      (strContains (toLowerStr c) "rating" || strContains (toLowerStr c) "rated" ||
       strContains (toLowerStr c) "stars" || strContains (toLowerStr c) "star") = false →
      (strContains (toLowerStr c) "cheap" || strContains (toLowerStr c) "low price" ||
       strContains (toLowerStr c) "lowest") = false →
      selectProductByCriteria ps c = 0) ∧
    selectProductByCriteria
      [⟨"A", "12.50", mkRat 32 10⟩, ⟨"B", "N/A", mkRat 46 10⟩, ⟨"C", "8.99", mkRat 41 10⟩]
      "cheapest" = 2 ∧
    selectProductByCriteria
      [⟨"A", "12.50", mkRat 32 10⟩, ⟨"B", "N/A", mkRat 46 10⟩, ⟨"C", "8.99", mkRat 41 10⟩]
      "rating above 4" = 1 := by
  refine ⟨?_, ?_, ?_, ?_, ?_, ?_, by decide, by decide⟩
  · -- first
    intro ps c h1
    by_cases hcl : toLowerStr c = ""
    · simp [selectProductByCriteria, hcl]
    · simp [selectProductByCriteria, hcl, h1]
  · -- second
    intro ps c h1 h2
    have hcl : toLowerStr c ≠ "" :=
      orContains_ne_empty (by decide) (by decide) ((Bool.and_eq_true _ _).mp h2).1
    simp [selectProductByCriteria, hcl, h1, h2]
  · -- third
    intro ps c h1 h2 h3
    have hcl : toLowerStr c ≠ "" :=
      orContains_ne_empty (by decide) (by decide) ((Bool.and_eq_true _ _).mp h3).1
    simp [selectProductByCriteria, hcl, h1, h2, h3]
  · -- rating
    intro ps c h1 h2 h3 h4
    have hcl : toLowerStr c ≠ "" := by
      rcases (Bool.or_eq_true _ _).mp h4 with h | h
      · rcases (Bool.or_eq_true _ _).mp h with h | h
        · rcases (Bool.or_eq_true _ _).mp h with h | h
          · exact contains_ne_empty (by decide) h
          · exact contains_ne_empty (by decide) h
        · exact contains_ne_empty (by decide) h
      · exact contains_ne_empty (by decide) h
    have hsel : selectProductByCriteria ps c =
        (if 4 ≤ (scanRating ps 0 0 0).1 then (scanRating ps 0 0 0).2 else 0) := by
      simp [selectProductByCriteria, hcl, h1, h2, h3, h4]
    constructor
    · rintro ⟨k, hk, hk4⟩
      have hub := scanRating_fst_ub ps 0 0 0 (ps.get ⟨k, hk⟩) (List.get_mem ps k hk) hk4
      have h4m : 4 ≤ (scanRating ps 0 0 0).1 := le_trans hk4 hub
      rw [hsel, if_pos h4m]
      rcases scanRating_realize ps 0 0 0 with heq | ⟨k', hk', he2, he1, he4⟩
      · rw [heq] at h4m
        norm_num at h4m
      · rw [Nat.zero_add] at he2
        have hr : (scanRating ps 0 0 0).2 < ps.length := he2 ▸ hk'
        refine ⟨hr, ?_, ?_⟩
        · have : ps.get ⟨(scanRating ps 0 0 0).2, hr⟩ = ps.get ⟨k', hk'⟩ := by
            simp [he2]
          rw [this, he1]
          exact h4m
        · intro k2 hk2 hq2
          have : ps.get ⟨(scanRating ps 0 0 0).2, hr⟩ = ps.get ⟨k', hk'⟩ := by
            simp [he2]
          rw [this, he1]
          exact scanRating_fst_ub ps 0 0 0 (ps.get ⟨k2, hk2⟩) (List.get_mem ps k2 hk2) hq2
    · intro hno
      have hno' : ∀ p ∈ ps, ¬ 4 ≤ p.rating := by
        intro p hp
        rcases List.mem_iff_get.mp hp with ⟨n, hn⟩
        exact hn ▸ hno n.1 n.2
      rw [hsel, scanRating_none ps 0 0 0 hno', if_neg (by norm_num)]
  · -- cheapest
    intro ps c h1 h2 h3 h4 h5
    have hcl : toLowerStr c ≠ "" := by
      rcases (Bool.or_eq_true _ _).mp h5 with h | h
      · rcases (Bool.or_eq_true _ _).mp h with h | h
        · exact contains_ne_empty (by decide) h
        · exact contains_ne_empty (by decide) h
      · exact contains_ne_empty (by decide) h
    have hsel : selectProductByCriteria ps c =
        (if 0 < (scanPrice ps 0 (-1) 0).1 then (scanPrice ps 0 (-1) 0).2 else 0) := by
      simp [selectProductByCriteria, hcl, h1, h2, h3, h4, h5]
    constructor
    · rintro ⟨k, hk, hkp⟩
      obtain ⟨hub, hpos⟩ :=
        scanPrice_fst_ub ps 0 (-1) 0 (Or.inl rfl) (ps.get ⟨k, hk⟩) (List.get_mem ps k hk) hkp
      rw [hsel, if_pos hpos]
      rcases scanPrice_realize ps 0 (-1) 0 with heq | ⟨k', hk', he2, he1, he0⟩
      · rw [heq] at hpos
        norm_num at hpos
      · rw [Nat.zero_add] at he2
        have hr : (scanPrice ps 0 (-1) 0).2 < ps.length := he2 ▸ hk'
        refine ⟨hr, ?_, ?_⟩
        · have : ps.get ⟨(scanPrice ps 0 (-1) 0).2, hr⟩ = ps.get ⟨k', hk'⟩ := by
            simp [he2]
          rw [this, he1]
          exact hpos
        · intro k2 hk2 hq2
          have : ps.get ⟨(scanPrice ps 0 (-1) 0).2, hr⟩ = ps.get ⟨k', hk'⟩ := by
            simp [he2]
          rw [this, he1]
          exact (scanPrice_fst_ub ps 0 (-1) 0 (Or.inl rfl) (ps.get ⟨k2, hk2⟩)
            (List.get_mem ps k2 hk2) hq2).1
    · intro hno
      have hno' : ∀ p ∈ ps, ¬ 0 < priceValue p.price := by
        intro p hp
        rcases List.mem_iff_get.mp hp with ⟨n, hn⟩
        exact hn ▸ hno n.1 n.2
      rw [hsel, scanPrice_none ps 0 (-1) 0 hno', if_neg (by norm_num)]
  · -- default
    intro ps c h1 h2 h3 h4 h5
    by_cases hcl : toLowerStr c = ""
    · simp [selectProductByCriteria, hcl]
    · simp [selectProductByCriteria, hcl, h1, h2, h3, h4, h5]

/-- C9 witnessed on concrete inputs: the ordinal rule and the rating
rule applied to explicit lists. -/
theorem C9_select_product_rules_witness :
    selectProductByCriteria [⟨"A", "9.99", mkRat 5 1⟩, ⟨"B", "1.99", mkRat 3 1⟩] "first result" = 0 ∧
    selectProductByCriteria [⟨"A", "9.99", mkRat 5 1⟩, ⟨"B", "1.99", mkRat 3 1⟩] "second option" = 1 :=
  ⟨C9_select_product_rules.1 _ "first result" (by decide),
   C9_select_product_rules.2.1 _ "second option" (by decide) (by decide)⟩

theorem afterStep_gate_false (cfg : Config) (env : ExecEnv) (st now : Nat) (s : LoopState) (b : Bool)
    (hg : ¬ (b = true ∧ (s.currentStepNum + 1) % validationInterval = 0 ∧
             cooldownOk now s.lastValidationTime = true)) :
    afterStep cfg env st now s b =
      .next { s with currentStepNum := s.currentStepNum + 1, iter := s.iter + 1 } := by
  unfold afterStep
  rw [if_neg hg]

theorem afterStep_valErr (cfg : Config) (env : ExecEnv) (st now : Nat) (s : LoopState) (b : Bool)
    (hg : b = true ∧ (s.currentStepNum + 1) % validationInterval = 0 ∧
          cooldownOk now s.lastValidationTime = true)
    (hv : env.validation s.validationCalls = none) :
    afterStep cfg env st now s b =
      .next { s with
        currentStepNum := s.currentStepNum + 1,
        validationCalls := s.validationCalls + 1, iter := s.iter + 1 } := by
  unfold afterStep
  rw [if_pos hg]
  simp only [hv]

theorem afterStep_complete (cfg : Config) (env : ExecEnv) (st now : Nat) (s : LoopState) (b : Bool)
    (vr : ValidationResult)
    (hg : b = true ∧ (s.currentStepNum + 1) % validationInterval = 0 ∧
          cooldownOk now s.lastValidationTime = true)
    (hv : env.validation s.validationCalls = some vr) (hc : vr.isComplete = true) :
    afterStep cfg env st now s b =
      .done ⟨true, s.executedSteps.length, now - st, vr.message, none, s.memory⟩
        { s with
          currentStepNum := s.currentStepNum + 1,
          validationCalls := s.validationCalls + 1, lastValidationTime := some now } := by
  unfold afterStep
  rw [if_pos hg]
  simp only [hv, hc, if_true]

theorem afterStep_continue (cfg : Config) (env : ExecEnv) (st now : Nat) (s : LoopState) (b : Bool)
    (vr : ValidationResult)
    (hg : b = true ∧ (s.currentStepNum + 1) % validationInterval = 0 ∧
          cooldownOk now s.lastValidationTime = true)
    (hv : env.validation s.validationCalls = some vr)
    (hc : vr.isComplete = false) (hr : vr.needsReplanning = false) :
    afterStep cfg env st now s b =
      .next { s with
        currentStepNum := s.currentStepNum + 1,
        validationCalls := s.validationCalls + 1, lastValidationTime := some now,
        iter := s.iter + 1 } := by
  unfold afterStep
  rw [if_pos hg]
  simp only [hv, hc, hr, if_false, Bool.false_eq_true]

theorem afterStep_replan (cfg : Config) (env : ExecEnv) (st now : Nat) (s : LoopState) (b : Bool)
    (vr : ValidationResult) (newPlan : Plan)
    (hg : b = true ∧ (s.currentStepNum + 1) % validationInterval = 0 ∧
          cooldownOk now s.lastValidationTime = true)
    (hv : env.validation s.validationCalls = some vr)
    (hc : vr.isComplete = false) (hr : vr.needsReplanning = true)
    (hp : env.replanning s.replanCalls = some newPlan) :
    afterStep cfg env st now s b =
      .next { s with
        plan := newPlan, currentStepNum := 0,
        validationCalls := s.validationCalls + 1, lastValidationTime := some now,
        replanCalls := s.replanCalls + 1,
        replanRequests := s.replanRequests ++
          [⟨s.taskDescription, s.executedSteps, vr.message⟩],
        iter := s.iter + 1 } := by
  unfold afterStep
  rw [if_pos hg]
  simp only [hv, hc, hr, hp, if_true, if_false, Bool.false_eq_true]

theorem afterStep_replan_fail (cfg : Config) (env : ExecEnv) (st now : Nat) (s : LoopState) (b : Bool)
    (vr : ValidationResult)
    (hg : b = true ∧ (s.currentStepNum + 1) % validationInterval = 0 ∧
          cooldownOk now s.lastValidationTime = true)
    (hv : env.validation s.validationCalls = some vr)
    (hc : vr.isComplete = false) (hr : vr.needsReplanning = true)
    (hp : env.replanning s.replanCalls = none) :
    afterStep cfg env st now s b =
      .next { s with
        currentStepNum := s.currentStepNum + 1,
        validationCalls := s.validationCalls + 1, lastValidationTime := some now,
        replanCalls := s.replanCalls + 1,
        replanRequests := s.replanRequests ++
          [⟨s.taskDescription, s.executedSteps, vr.message⟩],
        iter := s.iter + 1 } := by
  unfold afterStep
  rw [if_pos hg]
  simp only [hv, hc, hr, hp, if_true, if_false, Bool.false_eq_true]

theorem criticalOrSkip_noncrit (cfg : Config) (env : ExecEnv) (st now : Nat) (s : LoopState)
    (step : Step) (hc : step.critical = false) :
    criticalOrSkip cfg env st now s step = afterStep cfg env st now s false := by
  unfold criticalOrSkip
  simp only [hc, Bool.false_eq_true, if_false]

theorem criticalOrSkip_retry_ok (cfg : Config) (env : ExecEnv) (st now : Nat) (s : LoopState)
    (step : Step) (d : Option (List (String × GoVal))) (hc : step.critical = true)
    (hres : (env.stepOutcome s.execCalls).result = Except.ok d) :
    criticalOrSkip cfg env st now s step =
      afterStep cfg env st now
        { s with execCalls := s.execCalls + 1,
                 memory := (env.stepOutcome s.execCalls).memEffect s.memory,
                 consecutiveFailures := 0 } true := by
  unfold criticalOrSkip
  simp only [hc, if_true, hres]

theorem criticalOrSkip_retry_fail (cfg : Config) (env : ExecEnv) (st now : Nat) (s : LoopState)
    (step : Step) (rmsg : String) (hc : step.critical = true)
    (hres : (env.stepOutcome s.execCalls).result = Except.error rmsg) :
    criticalOrSkip cfg env st now s step =
      .done ⟨false, s.executedSteps.length, now - st, "",
             some ("critical step failed after retry: " ++ rmsg),
             (env.stepOutcome s.execCalls).memEffect s.memory⟩
        { s with execCalls := s.execCalls + 1,
                 memory := (env.stepOutcome s.execCalls).memEffect s.memory } := by
  unfold criticalOrSkip
  simp only [hc, if_true, hres]

theorem loopIter_exit (cfg : Config) (env : ExecEnv) (st : Nat) (s : LoopState)
    (h : ¬ (s.currentStepNum < s.plan.steps.length ∧ s.currentStepNum < cfg.maxSteps)) :
    loopIter cfg env st s = .done (exitResult cfg (env.time s.iter) st s) s := by
  unfold loopIter
  rw [if_neg h]

theorem loopIter_timeout (cfg : Config) (env : ExecEnv) (st : Nat) (s : LoopState)
    (hin : s.currentStepNum < s.plan.steps.length ∧ s.currentStepNum < cfg.maxSteps)
    (ht : st + cfg.totalTimeout < env.time s.iter) :
    loopIter cfg env st s =
      .done ⟨false, s.executedSteps.length, env.time s.iter - st, "",
             some "total timeout exceeded", s.memory⟩ s := by
  unfold loopIter
  rw [if_pos hin]
  simp only [ht, if_true]

theorem loopIter_ok (cfg : Config) (env : ExecEnv) (st : Nat) (s : LoopState)
    (d : Option (List (String × GoVal)))
    (hin : s.currentStepNum < s.plan.steps.length ∧ s.currentStepNum < cfg.maxSteps)
    (ht : ¬ st + cfg.totalTimeout < env.time s.iter)
    (hres : (env.stepOutcome s.execCalls).result = Except.ok d) :
    loopIter cfg env st s = afterStep cfg env st (env.time s.iter)
      { s with
        executedSteps := s.executedSteps ++
          [⟨s.plan.steps.getD s.currentStepNum defaultStep, true, none, env.time s.iter⟩],
        memory := (match d with
          | some dd => updateMemory ((env.stepOutcome s.execCalls).memEffect s.memory) dd
          | none => (env.stepOutcome s.execCalls).memEffect s.memory),
        consecutiveFailures := 0, execCalls := s.execCalls + 1 } true := by
  unfold loopIter
  rw [if_pos hin, if_neg ht]
  cases d with
  | none => simp only [hres]
  | some dd => simp only [hres]

theorem loopIter_fail_recovery_some (cfg : Config) (env : ExecEnv) (st : Nat) (s : LoopState)
    (msg : String) (rplan : Plan)
    (hin : s.currentStepNum < s.plan.steps.length ∧ s.currentStepNum < cfg.maxSteps)
    (ht : ¬ st + cfg.totalTimeout < env.time s.iter)
    (hres : (env.stepOutcome s.execCalls).result = Except.error msg)
    (hcf : maxConsecutiveFailures ≤ s.consecutiveFailures + 1)
    (hrec : env.recovery s.recoveryCalls = some rplan) :
    loopIter cfg env st s = .next
      { s with
        plan := rplan, currentStepNum := 0, consecutiveFailures := 0,
        executedSteps := s.executedSteps ++
          [⟨s.plan.steps.getD s.currentStepNum defaultStep, false, some msg, env.time s.iter⟩],
        memory := (env.stepOutcome s.execCalls).memEffect s.memory,
        execCalls := s.execCalls + 1,
        recoveryCalls := s.recoveryCalls + 1,
        recoveryRequests := s.recoveryRequests ++
          [⟨s.taskDescription,
            s.executedSteps ++
              [⟨s.plan.steps.getD s.currentStepNum defaultStep, false, some msg, env.time s.iter⟩],
            env.pageState s.iter, msg⟩],
        iter := s.iter + 1 } := by
  unfold loopIter
  rw [if_pos hin, if_neg ht]
  simp only [hres, if_pos hcf, hrec]

theorem loopIter_fail_recovery_none (cfg : Config) (env : ExecEnv) (st : Nat) (s : LoopState)
    (msg : String)
    (hin : s.currentStepNum < s.plan.steps.length ∧ s.currentStepNum < cfg.maxSteps)
    (ht : ¬ st + cfg.totalTimeout < env.time s.iter)
    (hres : (env.stepOutcome s.execCalls).result = Except.error msg)
    (hcf : maxConsecutiveFailures ≤ s.consecutiveFailures + 1)
    (hrec : env.recovery s.recoveryCalls = none) :
    loopIter cfg env st s = criticalOrSkip cfg env st (env.time s.iter)
      { s with
        executedSteps := s.executedSteps ++
          [⟨s.plan.steps.getD s.currentStepNum defaultStep, false, some msg, env.time s.iter⟩],
        memory := (env.stepOutcome s.execCalls).memEffect s.memory,
        consecutiveFailures := s.consecutiveFailures + 1,
        execCalls := s.execCalls + 1,
        recoveryCalls := s.recoveryCalls + 1,
        recoveryRequests := s.recoveryRequests ++
          [⟨s.taskDescription,
            s.executedSteps ++
              [⟨s.plan.steps.getD s.currentStepNum defaultStep, false, some msg, env.time s.iter⟩],
            env.pageState s.iter, msg⟩] }
      (s.plan.steps.getD s.currentStepNum defaultStep) := by
  unfold loopIter
  rw [if_pos hin, if_neg ht]
  simp only [hres, if_pos hcf, hrec]

theorem loopIter_fail_below (cfg : Config) (env : ExecEnv) (st : Nat) (s : LoopState)
    (msg : String)
    (hin : s.currentStepNum < s.plan.steps.length ∧ s.currentStepNum < cfg.maxSteps)
    (ht : ¬ st + cfg.totalTimeout < env.time s.iter)
    (hres : (env.stepOutcome s.execCalls).result = Except.error msg)
    (hcf : ¬ maxConsecutiveFailures ≤ s.consecutiveFailures + 1) :
    loopIter cfg env st s = criticalOrSkip cfg env st (env.time s.iter)
      { s with
        executedSteps := s.executedSteps ++
          [⟨s.plan.steps.getD s.currentStepNum defaultStep, false, some msg, env.time s.iter⟩],
        memory := (env.stepOutcome s.execCalls).memEffect s.memory,
        consecutiveFailures := s.consecutiveFailures + 1,
        execCalls := s.execCalls + 1 }
      (s.plan.steps.getD s.currentStepNum defaultStep) := by
  unfold loopIter
  rw [if_pos hin, if_neg ht]
  simp only [hres, if_neg hcf]

theorem afterStep_state (cfg : Config) (env : ExecEnv) (st now : Nat) (s : LoopState) (b : Bool) :
    (stateOf (afterStep cfg env st now s b)).executedSteps = s.executedSteps ∧
    (stateOf (afterStep cfg env st now s b)).memory = s.memory ∧
    (stateOf (afterStep cfg env st now s b)).execCalls = s.execCalls ∧
    (stateOf (afterStep cfg env st now s b)).recoveryCalls = s.recoveryCalls ∧
    (stateOf (afterStep cfg env st now s b)).recoveryRequests = s.recoveryRequests ∧
    (stateOf (afterStep cfg env st now s b)).consecutiveFailures = s.consecutiveFailures ∧
    (stateOf (afterStep cfg env st now s b)).taskDescription = s.taskDescription ∧
    ((stateOf (afterStep cfg env st now s b)).replanRequests = s.replanRequests ∨
      ∃ reason, (stateOf (afterStep cfg env st now s b)).replanRequests =
        s.replanRequests ++ [⟨s.taskDescription, s.executedSteps, reason⟩]) := by
  by_cases hg : b = true ∧ (s.currentStepNum + 1) % validationInterval = 0 ∧
      cooldownOk now s.lastValidationTime = true
  · cases hv : env.validation s.validationCalls with
    | none =>
      rw [afterStep_valErr cfg env st now s b hg hv]
      exact ⟨rfl, rfl, rfl, rfl, rfl, rfl, rfl, Or.inl rfl⟩
    | some vr =>
      by_cases hc : vr.isComplete = true
      · rw [afterStep_complete cfg env st now s b vr hg hv hc]
        exact ⟨rfl, rfl, rfl, rfl, rfl, rfl, rfl, Or.inl rfl⟩
      · have hc' : vr.isComplete = false := by revert hc; cases vr.isComplete <;> simp
        by_cases hr : vr.needsReplanning = true
        · cases hp : env.replanning s.replanCalls with
          | none =>
            rw [afterStep_replan_fail cfg env st now s b vr hg hv hc' hr hp]
            exact ⟨rfl, rfl, rfl, rfl, rfl, rfl, rfl, Or.inr ⟨vr.message, rfl⟩⟩
          | some np =>
            rw [afterStep_replan cfg env st now s b vr np hg hv hc' hr hp]
            exact ⟨rfl, rfl, rfl, rfl, rfl, rfl, rfl, Or.inr ⟨vr.message, rfl⟩⟩
        · have hr' : vr.needsReplanning = false := by revert hr; cases vr.needsReplanning <;> simp
          rw [afterStep_continue cfg env st now s b vr hg hv hc' hr']
          exact ⟨rfl, rfl, rfl, rfl, rfl, rfl, rfl, Or.inl rfl⟩
  · rw [afterStep_gate_false cfg env st now s b hg]
    exact ⟨rfl, rfl, rfl, rfl, rfl, rfl, rfl, Or.inl rfl⟩

theorem criticalOrSkip_state (cfg : Config) (env : ExecEnv) (st now : Nat) (s : LoopState)
    (step : Step) :
    (stateOf (criticalOrSkip cfg env st now s step)).executedSteps = s.executedSteps ∧
    (stateOf (criticalOrSkip cfg env st now s step)).recoveryCalls = s.recoveryCalls ∧
    (stateOf (criticalOrSkip cfg env st now s step)).recoveryRequests = s.recoveryRequests ∧
    (stateOf (criticalOrSkip cfg env st now s step)).taskDescription = s.taskDescription ∧
    ((stateOf (criticalOrSkip cfg env st now s step)).execCalls = s.execCalls ∨
      ((stateOf (criticalOrSkip cfg env st now s step)).execCalls = s.execCalls + 1 ∧
        step.critical = true)) ∧
    ((stateOf (criticalOrSkip cfg env st now s step)).replanRequests = s.replanRequests ∨
      ∃ reason, (stateOf (criticalOrSkip cfg env st now s step)).replanRequests =
        s.replanRequests ++ [⟨s.taskDescription, s.executedSteps, reason⟩]) := by
  by_cases hc : step.critical = true
  · cases hres : (env.stepOutcome s.execCalls).result with
    | ok d =>
      rw [criticalOrSkip_retry_ok cfg env st now s step d hc hres]
      obtain ⟨h1, _, h3, h4, h5, _, h7, h8⟩ := afterStep_state cfg env st now
        { s with execCalls := s.execCalls + 1,
                 memory := (env.stepOutcome s.execCalls).memEffect s.memory,
                 consecutiveFailures := 0 } true
      exact ⟨h1, h4, h5, h7, Or.inr ⟨h3, hc⟩, h8⟩
    | error rmsg =>
      rw [criticalOrSkip_retry_fail cfg env st now s step rmsg hc hres]
      exact ⟨rfl, rfl, rfl, rfl, Or.inr ⟨rfl, hc⟩, Or.inl rfl⟩
  · have hc' : step.critical = false := by revert hc; cases step.critical <;> simp
    rw [criticalOrSkip_noncrit cfg env st now s step hc']
    obtain ⟨h1, _, h3, h4, h5, _, h7, h8⟩ := afterStep_state cfg env st now s false
    exact ⟨h1, h4, h5, h7, Or.inl h3, h8⟩

theorem afterStep_validation_gate (cfg : Config) (env : ExecEnv) (st now : Nat) (s : LoopState)
    (b : Bool)
    (h : (stateOf (afterStep cfg env st now s b)).validationCalls ≠ s.validationCalls) :
    b = true ∧ (s.currentStepNum + 1) % validationInterval = 0 ∧
    cooldownOk now s.lastValidationTime = true := by
  by_cases hg : b = true ∧ (s.currentStepNum + 1) % validationInterval = 0 ∧
      cooldownOk now s.lastValidationTime = true
  · exact hg
  · exact absurd (by rw [afterStep_gate_false cfg env st now s b hg]; rfl) h

theorem afterStep_benign (cfg : Config) (env : ExecEnv) (st now : Nat) (s : LoopState) (b : Bool)
    (hval : ∀ k vr, env.validation k = some vr →
      vr.isComplete = false ∧ vr.needsReplanning = false) :
    ∃ s', afterStep cfg env st now s b = .next s' ∧ s'.plan = s.plan ∧
      s'.currentStepNum = s.currentStepNum + 1 ∧ s'.executedSteps = s.executedSteps := by
  by_cases hg : b = true ∧ (s.currentStepNum + 1) % validationInterval = 0 ∧
      cooldownOk now s.lastValidationTime = true
  · cases hv : env.validation s.validationCalls with
    | none => exact ⟨_, afterStep_valErr cfg env st now s b hg hv, rfl, rfl, rfl⟩
    | some vr =>
      obtain ⟨h1, h2⟩ := hval _ _ hv
      exact ⟨_, afterStep_continue cfg env st now s b vr hg hv h1 h2, rfl, rfl, rfl⟩
  · exact ⟨_, afterStep_gate_false cfg env st now s b hg, rfl, rfl, rfl⟩

theorem runLoop_allOk (cfg : Config) (env : ExecEnv) (st : Nat)
    (hok : ∀ k, ∃ d, (env.stepOutcome k).result = Except.ok d)
    (htime : ∀ k, env.time k ≤ st + cfg.totalTimeout)
    (hval : ∀ k vr, env.validation k = some vr →
      vr.isComplete = false ∧ vr.needsReplanning = false) :
    ∀ (fuel : Nat) (s : LoopState) (L : Nat),
      s.plan.steps.length = L → s.currentStepNum ≤ L → L ≤ cfg.maxSteps →
      L - s.currentStepNum + 1 ≤ fuel →
      ∃ r fin, runLoop cfg env st fuel s = some (r, fin) ∧
        r.stepsExecuted = s.executedSteps.length + (L - s.currentStepNum) ∧
        (r.success = true ↔ L < cfg.maxSteps) ∧
        (L < cfg.maxSteps → r.finalState = "All planned steps completed" ∧ r.error = none) ∧
        (¬ L < cfg.maxSteps → r.success = false ∧ r.error = some "max steps exceeded") := by
  intro fuel
  induction fuel with
  | zero => intro s L _ _ _ hf; omega
  | succ n ih =>
    intro s L hL hcur hLmax hf
    by_cases hend : s.currentStepNum < L
    · have hin : s.currentStepNum < s.plan.steps.length ∧ s.currentStepNum < cfg.maxSteps := by
        constructor
        · rw [hL]; exact hend
        · omega
      have ht : ¬ st + cfg.totalTimeout < env.time s.iter := by
        have := htime s.iter
        omega
      obtain ⟨d, hres⟩ := hok s.execCalls
      obtain ⟨s', hs', hplan, hcur', hes⟩ := afterStep_benign cfg env st (env.time s.iter)
        { s with
          executedSteps := s.executedSteps ++
            [⟨s.plan.steps.getD s.currentStepNum defaultStep, true, none, env.time s.iter⟩],
          memory := (match d with
            | some dd => updateMemory ((env.stepOutcome s.execCalls).memEffect s.memory) dd
            | none => (env.stepOutcome s.execCalls).memEffect s.memory),
          consecutiveFailures := 0, execCalls := s.execCalls + 1 } true hval
      have hlen' : s'.executedSteps.length = s.executedSteps.length + 1 := by
        rw [hes]
        simp
      have hcur2 : s'.currentStepNum = s.currentStepNum + 1 := hcur'
      obtain ⟨r, fin, hrun, h1, h2, h3, h4⟩ := ih s' L (by rw [hplan]; exact hL)
        (by omega) hLmax (by omega)
      refine ⟨r, fin, ?_, ?_, h2, h3, h4⟩
      · simp only [runLoop]
        rw [loopIter_ok cfg env st s d hin ht hres, hs']
        exact hrun
      · rw [h1, hlen', hcur2]
        omega
    · have hcurL : s.currentStepNum = L := by omega
      have hexit : ¬ (s.currentStepNum < s.plan.steps.length ∧ s.currentStepNum < cfg.maxSteps) := by
        rw [hL, hcurL]
        simp
      refine ⟨exitResult cfg (env.time s.iter) st s, s, ?_, ?_, ?_, ?_, ?_⟩
      · simp only [runLoop]
        rw [loopIter_exit cfg env st s hexit]
      · unfold exitResult
        by_cases hms : cfg.maxSteps ≤ s.currentStepNum
        · rw [if_pos hms]
          show s.executedSteps.length = s.executedSteps.length + (L - s.currentStepNum)
          omega
        · rw [if_neg hms]
          show s.executedSteps.length = s.executedSteps.length + (L - s.currentStepNum)
          omega
      · unfold exitResult
        by_cases hms : cfg.maxSteps ≤ s.currentStepNum
        · rw [if_pos hms]
          show false = true ↔ L < cfg.maxSteps
          simp only [Bool.false_eq_true, false_iff]
          omega
        · rw [if_neg hms]
          show true = true ↔ L < cfg.maxSteps
          simp only [true_iff]
          omega
      · intro hlt
        unfold exitResult
        rw [if_neg (by omega)]
        exact ⟨rfl, rfl⟩
      · intro hnlt
        unfold exitResult
        rw [if_pos (by omega)]
        exact ⟨rfl, rfl⟩

/-- C1 counterexample: a one-step plan with `MaxSteps = 1` (the boundary
`MaxSteps == N`), no failures, no timeout and no validator judgment
executes its whole plan and still returns `Success = false` with
"max steps exceeded", because the post-loop max-steps check fires
whenever `CurrentStepNum >= MaxSteps`, even when the plan was
simultaneously exhausted. -/
theorem C1_counterexample :
    (executeTaskFromPlan { defaultConfig with maxSteps := 1 }
        ⟨fun _ => ⟨id, Except.ok none⟩, fun _ => none, fun _ => none, fun _ => none,
         fun _ => ⟨"", "", ""⟩, fun _ => 0⟩ 0 2 "task"
        ⟨[⟨"navigate", "go to site", "https://x", GoVal.null, [], false⟩]⟩ emptyMemory).map
      (fun r => (r.1.success, r.1.stepsExecuted, r.1.error)) =
      some (false, 1, some "max steps exceeded") := by
  decide

/-- C1 amended: for a plan of N steps with every execution succeeding,
the total timeout never exceeded, and the validator never reporting
completion or replanning, `ExecuteTask` executes all N steps and
reports `StepsExecuted = N`; when `MaxSteps > N` it returns success
with final state "All planned steps completed", but at the boundary
`MaxSteps = N` it returns failure "max steps exceeded". -/
theorem C1_amended (cfg : Config) (env : ExecEnv) (st : Nat) (td : String) (plan : Plan)
    (mem : AgentMemory) (fuel N : Nat)
    (hN : plan.steps.length = N)
    (hok : ∀ k, ∃ d, (env.stepOutcome k).result = Except.ok d)
    (htime : ∀ k, env.time k ≤ st + cfg.totalTimeout)
    (hval : ∀ k vr, env.validation k = some vr →
      vr.isComplete = false ∧ vr.needsReplanning = false)
    (hle : N ≤ cfg.maxSteps) (hfuel : N + 1 ≤ fuel) :
    ∃ r fin, executeTaskFromPlan cfg env st fuel td plan mem = some (r, fin) ∧
      r.stepsExecuted = N ∧
      (N < cfg.maxSteps →
        r.success = true ∧ r.finalState = "All planned steps completed" ∧ r.error = none) ∧
      (cfg.maxSteps = N → r.success = false ∧ r.error = some "max steps exceeded") := by
  obtain ⟨r, fin, h0, h1, h2, h3, h4⟩ := runLoop_allOk cfg env st hok htime hval fuel
    (initState td plan mem) N hN (Nat.zero_le N) hle
    (show N - (initState td plan mem).currentStepNum + 1 ≤ fuel from by
      show N - 0 + 1 ≤ fuel
      omega)
  have h1' : r.stepsExecuted = 0 + (N - 0) := h1
  refine ⟨r, fin, h0, by omega, fun hlt => ⟨h2.mpr hlt, (h3 hlt).1, (h3 hlt).2⟩, fun heq => ?_⟩
  have hnlt : ¬ N < cfg.maxSteps := by omega
  exact h4 hnlt

/-- C1 amended, witnessed: a one-step plan under `MaxSteps = 3`
completes with success and `StepsExecuted = 1`. -/
theorem C1_amended_witness :
    ∃ r fin, executeTaskFromPlan { defaultConfig with maxSteps := 3 }
        ⟨fun _ => ⟨id, Except.ok none⟩, fun _ => none, fun _ => none, fun _ => none,
         fun _ => ⟨"", "", ""⟩, fun _ => 0⟩ 0 2 "task"
        ⟨[⟨"navigate", "go to site", "https://x", GoVal.null, [], false⟩]⟩ emptyMemory =
        some (r, fin) ∧
      r.stepsExecuted = 1 ∧
      (1 < 3 →
        r.success = true ∧ r.finalState = "All planned steps completed" ∧ r.error = none) ∧
      (3 = 1 → r.success = false ∧ r.error = some "max steps exceeded") :=
  C1_amended { defaultConfig with maxSteps := 3 }
    ⟨fun _ => ⟨id, Except.ok none⟩, fun _ => none, fun _ => none, fun _ => none,
     fun _ => ⟨"", "", ""⟩, fun _ => 0⟩ 0 "task"
    ⟨[⟨"navigate", "go to site", "https://x", GoVal.null, [], false⟩]⟩ emptyMemory 2 1
    rfl (fun _ => ⟨none, rfl⟩) (fun _ => by norm_num) (fun k vr h => by cases h) (by norm_num)
    (by norm_num)

theorem loopIter_step_effects (cfg : Config) (env : ExecEnv) (st : Nat) (s : LoopState)
    (hin : s.currentStepNum < s.plan.steps.length ∧ s.currentStepNum < cfg.maxSteps)
    (ht : ¬ st + cfg.totalTimeout < env.time s.iter) :
    ∃ rec : ExecutedStep,
      (stateOf (loopIter cfg env st s)).executedSteps = s.executedSteps ++ [rec] ∧
      rec.step = s.plan.steps.getD s.currentStepNum defaultStep ∧
      ((stateOf (loopIter cfg env st s)).execCalls = s.execCalls + 1 ∨
        ((stateOf (loopIter cfg env st s)).execCalls = s.execCalls + 2 ∧
          (∃ msg, (env.stepOutcome s.execCalls).result = Except.error msg) ∧
          (s.plan.steps.getD s.currentStepNum defaultStep).critical = true)) ∧
      (∀ req ∈ (stateOf (loopIter cfg env st s)).recoveryRequests,
        req ∈ s.recoveryRequests ∨ req.executedSteps = s.executedSteps ++ [rec]) ∧
      (∀ req ∈ (stateOf (loopIter cfg env st s)).replanRequests,
        req ∈ s.replanRequests ∨ req.executedSteps = s.executedSteps ++ [rec]) := by
  cases hres : (env.stepOutcome s.execCalls).result with
  | ok d =>
    rw [loopIter_ok cfg env st s d hin ht hres]
    obtain ⟨a1, a2, a3, a4, a5, a6, a7, a8⟩ := afterStep_state cfg env st (env.time s.iter)
      { s with
        executedSteps := s.executedSteps ++
          [⟨s.plan.steps.getD s.currentStepNum defaultStep, true, none, env.time s.iter⟩],
        memory := (match d with
          | some dd => updateMemory ((env.stepOutcome s.execCalls).memEffect s.memory) dd
          | none => (env.stepOutcome s.execCalls).memEffect s.memory),
        consecutiveFailures := 0, execCalls := s.execCalls + 1 } true
    refine ⟨⟨s.plan.steps.getD s.currentStepNum defaultStep, true, none, env.time s.iter⟩,
      a1, rfl, Or.inl a3, ?_, ?_⟩
    · intro req hreq
      rw [a5] at hreq
      exact Or.inl hreq
    · intro req hreq
      rcases a8 with hsame | ⟨reason, happ⟩
      · rw [hsame] at hreq
        exact Or.inl hreq
      · rw [happ] at hreq
        rcases List.mem_append.mp hreq with hl | hr
        · exact Or.inl hl
        · rcases List.mem_singleton.mp hr with rfl
          exact Or.inr rfl
  | error msg =>
    by_cases hcf : maxConsecutiveFailures ≤ s.consecutiveFailures + 1
    · cases hrec : env.recovery s.recoveryCalls with
      | some rplan =>
        rw [loopIter_fail_recovery_some cfg env st s msg rplan hin ht hres hcf hrec]
        refine ⟨⟨s.plan.steps.getD s.currentStepNum defaultStep, false, some msg, env.time s.iter⟩,
          rfl, rfl, Or.inl rfl, ?_, ?_⟩
        · intro req hreq
          rcases List.mem_append.mp hreq with hl | hr
          · exact Or.inl hl
          · rcases List.mem_singleton.mp hr with rfl
            exact Or.inr rfl
        · intro req hreq
          exact Or.inl hreq
      | none =>
        rw [loopIter_fail_recovery_none cfg env st s msg hin ht hres hcf hrec]
        obtain ⟨c1, c2, c3, c4, c5, c6⟩ := criticalOrSkip_state cfg env st (env.time s.iter)
          { s with
            executedSteps := s.executedSteps ++
              [⟨s.plan.steps.getD s.currentStepNum defaultStep, false, some msg, env.time s.iter⟩],
            memory := (env.stepOutcome s.execCalls).memEffect s.memory,
            consecutiveFailures := s.consecutiveFailures + 1,
            execCalls := s.execCalls + 1,
            recoveryCalls := s.recoveryCalls + 1,
            recoveryRequests := s.recoveryRequests ++
              [⟨s.taskDescription,
                s.executedSteps ++
                  [⟨s.plan.steps.getD s.currentStepNum defaultStep, false, some msg, env.time s.iter⟩],
                env.pageState s.iter, msg⟩] }
          (s.plan.steps.getD s.currentStepNum defaultStep)
        refine ⟨⟨s.plan.steps.getD s.currentStepNum defaultStep, false, some msg, env.time s.iter⟩,
          c1, rfl, ?_, ?_, ?_⟩
        · rcases c5 with h | ⟨h, hcrit⟩
          · exact Or.inl h
          · exact Or.inr ⟨h, ⟨msg, rfl⟩, hcrit⟩
        · intro req hreq
          rw [c3] at hreq
          rcases List.mem_append.mp hreq with hl | hr
          · exact Or.inl hl
          · rcases List.mem_singleton.mp hr with rfl
            exact Or.inr rfl
        · intro req hreq
          rcases c6 with hsame | ⟨reason, happ⟩
          · rw [hsame] at hreq
            exact Or.inl hreq
          · rw [happ] at hreq
            rcases List.mem_append.mp hreq with hl | hr
            · exact Or.inl hl
            · rcases List.mem_singleton.mp hr with rfl
              exact Or.inr rfl
    · rw [loopIter_fail_below cfg env st s msg hin ht hres hcf]
      obtain ⟨c1, c2, c3, c4, c5, c6⟩ := criticalOrSkip_state cfg env st (env.time s.iter)
        { s with
          executedSteps := s.executedSteps ++
            [⟨s.plan.steps.getD s.currentStepNum defaultStep, false, some msg, env.time s.iter⟩],
          memory := (env.stepOutcome s.execCalls).memEffect s.memory,
          consecutiveFailures := s.consecutiveFailures + 1,
          execCalls := s.execCalls + 1 }
        (s.plan.steps.getD s.currentStepNum defaultStep)
      refine ⟨⟨s.plan.steps.getD s.currentStepNum defaultStep, false, some msg, env.time s.iter⟩,
        c1, rfl, ?_, ?_, ?_⟩
      · rcases c5 with h | ⟨h, hcrit⟩
        · exact Or.inl h
        · exact Or.inr ⟨h, ⟨msg, rfl⟩, hcrit⟩
      · intro req hreq
        rw [c3] at hreq
        exact Or.inl hreq
      · intro req hreq
        rcases c6 with hsame | ⟨reason, happ⟩
        · rw [hsame] at hreq
          exact Or.inl hreq
        · rw [happ] at hreq
          rcases List.mem_append.mp hreq with hl | hr
          · exact Or.inl hl
          · rcases List.mem_singleton.mp hr with rfl
            exact Or.inr rfl

/-- C2: when a step fails and the consecutive-failure counter reaches
`maxConsecutiveFailures` (3), the iteration makes exactly one
recovery-plan request, built from the execution context's audit log
(including the new failure record, of the step drawn from the current
plan), the observed page state and the error message; a returned
recovery plan replaces the plan with `CurrentStepNum` and
`consecutiveFailures` both reset to 0, abandoning the old plan's
remaining steps; if recovery planning fails, the failure falls through
to the normal critical/non-critical handling of that step. -/
theorem C2_recovery (cfg : Config) (env : ExecEnv) (st : Nat) (s : LoopState) (msg : String)
    (hin : s.currentStepNum < s.plan.steps.length ∧ s.currentStepNum < cfg.maxSteps)
    (ht : ¬ st + cfg.totalTimeout < env.time s.iter)
    (hres : (env.stepOutcome s.execCalls).result = Except.error msg)
    (hcf : maxConsecutiveFailures ≤ s.consecutiveFailures + 1) :
    (stateOf (loopIter cfg env st s)).recoveryCalls = s.recoveryCalls + 1 ∧
    (stateOf (loopIter cfg env st s)).recoveryRequests = s.recoveryRequests ++
      [⟨s.taskDescription,
        s.executedSteps ++
          [⟨s.plan.steps.getD s.currentStepNum defaultStep, false, some msg, env.time s.iter⟩],
        env.pageState s.iter, msg⟩] ∧
    (∀ rplan, env.recovery s.recoveryCalls = some rplan →
      ∃ s', loopIter cfg env st s = .next s' ∧ s'.plan = rplan ∧ s'.currentStepNum = 0 ∧
        s'.consecutiveFailures = 0 ∧
        s'.executedSteps = s.executedSteps ++
          [⟨s.plan.steps.getD s.currentStepNum defaultStep, false, some msg, env.time s.iter⟩]) ∧
    (env.recovery s.recoveryCalls = none →
      ((s.plan.steps.getD s.currentStepNum defaultStep).critical = false →
        ∃ s', loopIter cfg env st s = .next s' ∧ s'.plan = s.plan ∧
          s'.currentStepNum = s.currentStepNum + 1 ∧
          s'.consecutiveFailures = s.consecutiveFailures + 1 ∧
          s'.executedSteps = s.executedSteps ++
            [⟨s.plan.steps.getD s.currentStepNum defaultStep, false, some msg, env.time s.iter⟩]) ∧
      ((s.plan.steps.getD s.currentStepNum defaultStep).critical = true →
        (∀ rmsg, (env.stepOutcome (s.execCalls + 1)).result = Except.error rmsg →
          ∃ r fin, loopIter cfg env st s = .done r fin ∧ r.success = false ∧
            r.stepsExecuted = s.executedSteps.length + 1 ∧
            r.error = some ("critical step failed after retry: " ++ rmsg)) ∧
        (∀ d, (env.stepOutcome (s.execCalls + 1)).result = Except.ok d →
          (stateOf (loopIter cfg env st s)).consecutiveFailures = 0))) := by
  refine ⟨?_, ?_, ?_, ?_⟩
  · cases hrec : env.recovery s.recoveryCalls with
    | some rplan =>
      rw [loopIter_fail_recovery_some cfg env st s msg rplan hin ht hres hcf hrec]
      rfl
    | none =>
      rw [loopIter_fail_recovery_none cfg env st s msg hin ht hres hcf hrec]
      obtain ⟨_, c2, _, _, _, _⟩ := criticalOrSkip_state cfg env st (env.time s.iter)
        { s with
          executedSteps := s.executedSteps ++
            [⟨s.plan.steps.getD s.currentStepNum defaultStep, false, some msg, env.time s.iter⟩],
          memory := (env.stepOutcome s.execCalls).memEffect s.memory,
          consecutiveFailures := s.consecutiveFailures + 1,
          execCalls := s.execCalls + 1,
          recoveryCalls := s.recoveryCalls + 1,
          recoveryRequests := s.recoveryRequests ++
            [⟨s.taskDescription,
              s.executedSteps ++
                [⟨s.plan.steps.getD s.currentStepNum defaultStep, false, some msg, env.time s.iter⟩],
              env.pageState s.iter, msg⟩] }
        (s.plan.steps.getD s.currentStepNum defaultStep)
      exact c2
  · cases hrec : env.recovery s.recoveryCalls with
    | some rplan =>
      rw [loopIter_fail_recovery_some cfg env st s msg rplan hin ht hres hcf hrec]
      rfl
    | none =>
      rw [loopIter_fail_recovery_none cfg env st s msg hin ht hres hcf hrec]
      obtain ⟨_, _, c3, _, _, _⟩ := criticalOrSkip_state cfg env st (env.time s.iter)
        { s with
          executedSteps := s.executedSteps ++
            [⟨s.plan.steps.getD s.currentStepNum defaultStep, false, some msg, env.time s.iter⟩],
          memory := (env.stepOutcome s.execCalls).memEffect s.memory,
          consecutiveFailures := s.consecutiveFailures + 1,
          execCalls := s.execCalls + 1,
          recoveryCalls := s.recoveryCalls + 1,
          recoveryRequests := s.recoveryRequests ++
            [⟨s.taskDescription,
              s.executedSteps ++
                [⟨s.plan.steps.getD s.currentStepNum defaultStep, false, some msg, env.time s.iter⟩],
              env.pageState s.iter, msg⟩] }
        (s.plan.steps.getD s.currentStepNum defaultStep)
      exact c3
  · intro rplan hrec
    rw [loopIter_fail_recovery_some cfg env st s msg rplan hin ht hres hcf hrec]
    exact ⟨_, rfl, rfl, rfl, rfl, rfl⟩
  · intro hrec
    rw [loopIter_fail_recovery_none cfg env st s msg hin ht hres hcf hrec]
    constructor
    · intro hnc
      rw [criticalOrSkip_noncrit _ _ _ _ _ _ hnc,
        afterStep_gate_false _ _ _ _ _ _ (by simp)]
      exact ⟨_, rfl, rfl, rfl, rfl, rfl⟩
    · intro hc
      constructor
      · intro rmsg hres2
        rw [criticalOrSkip_retry_fail _ _ _ _ _ _ rmsg hc hres2]
        refine ⟨_, _, rfl, rfl, ?_, rfl⟩
        show (s.executedSteps ++
          [(⟨s.plan.steps.getD s.currentStepNum defaultStep, false, some msg,
            env.time s.iter⟩ : ExecutedStep)]).length = s.executedSteps.length + 1
        simp
      · intro d hres2
        rw [criticalOrSkip_retry_ok _ _ _ _ _ _ d hc hres2]
        obtain ⟨_, _, _, _, _, a6, _, _⟩ := afterStep_state cfg env st (env.time s.iter) _ true
        exact a6

/-- C2 witnessed: a concrete failing step with the counter at the
threshold triggers recovery, and the returned recovery plan replaces
the plan with both counters reset. -/
theorem C2_recovery_witness :
    ∃ s', loopIter defaultConfig
        ⟨fun _ => ⟨id, Except.error "boom"⟩,
         fun _ => some ⟨[⟨"wait", "wait a moment", "", GoVal.null, [], false⟩]⟩,
         fun _ => none, fun _ => none, fun _ => ⟨"u", "t", "c"⟩, fun _ => 0⟩ 0
        { initState "task" ⟨[⟨"click", "click the button", "#b", GoVal.null, [], false⟩]⟩
            emptyMemory with consecutiveFailures := 2 } = .next s' ∧
      s'.plan = ⟨[⟨"wait", "wait a moment", "", GoVal.null, [], false⟩]⟩ ∧
      s'.currentStepNum = 0 ∧ s'.consecutiveFailures = 0 ∧
      s'.executedSteps =
        ({ initState "task" ⟨[⟨"click", "click the button", "#b", GoVal.null, [], false⟩]⟩
            emptyMemory with consecutiveFailures := 2 } : LoopState).executedSteps ++
          [⟨({ initState "task" ⟨[⟨"click", "click the button", "#b", GoVal.null, [], false⟩]⟩
              emptyMemory with consecutiveFailures := 2 } : LoopState).plan.steps.getD 0 defaultStep,
            false, some "boom", 0⟩] :=
  (C2_recovery defaultConfig
    ⟨fun _ => ⟨id, Except.error "boom"⟩,
     fun _ => some ⟨[⟨"wait", "wait a moment", "", GoVal.null, [], false⟩]⟩,
     fun _ => none, fun _ => none, fun _ => ⟨"u", "t", "c"⟩, fun _ => 0⟩ 0
    { initState "task" ⟨[⟨"click", "click the button", "#b", GoVal.null, [], false⟩]⟩
        emptyMemory with consecutiveFailures := 2 } "boom"
    (by decide) (by decide) rfl (by decide)).2.2.1
    ⟨[⟨"wait", "wait a moment", "", GoVal.null, [], false⟩]⟩ rfl

/-- C3 evaluated at the failing input: a critical step whose first
execution fails with "boom" and whose retry succeeds.  After the
iteration, `consecutiveFailures` is reset to 0, the step index has
advanced and both ExecuteStep calls happened — but the ExecutedStep
record appended to the log still carries `Success = false` and the
original error, because the Go code mutates a local copy of the struct
after appending it (executor.go lines 2024–2025 are dead stores), so
the step is never recorded as successful. -/
theorem C3_critical_retry_record :
    (stateOf (loopIter defaultConfig
        ⟨fun k => if k = 0 then ⟨id, Except.error "boom"⟩ else ⟨id, Except.ok none⟩,
         fun _ => none, fun _ => none, fun _ => none, fun _ => ⟨"", "", ""⟩, fun _ => 0⟩ 0
        (initState "task" ⟨[⟨"click", "buy now", "#buy", GoVal.null, [], true⟩]⟩
          emptyMemory))).executedSteps =
      [⟨⟨"click", "buy now", "#buy", GoVal.null, [], true⟩, false, some "boom", 0⟩] ∧
    (stateOf (loopIter defaultConfig
        ⟨fun k => if k = 0 then ⟨id, Except.error "boom"⟩ else ⟨id, Except.ok none⟩,
         fun _ => none, fun _ => none, fun _ => none, fun _ => ⟨"", "", ""⟩, fun _ => 0⟩ 0
        (initState "task" ⟨[⟨"click", "buy now", "#buy", GoVal.null, [], true⟩]⟩
          emptyMemory))).consecutiveFailures = 0 ∧
    (stateOf (loopIter defaultConfig
        ⟨fun k => if k = 0 then ⟨id, Except.error "boom"⟩ else ⟨id, Except.ok none⟩,
         fun _ => none, fun _ => none, fun _ => none, fun _ => ⟨"", "", ""⟩, fun _ => 0⟩ 0
        (initState "task" ⟨[⟨"click", "buy now", "#buy", GoVal.null, [], true⟩]⟩
          emptyMemory))).currentStepNum = 1 ∧
    (stateOf (loopIter defaultConfig
        ⟨fun k => if k = 0 then ⟨id, Except.error "boom"⟩ else ⟨id, Except.ok none⟩,
         fun _ => none, fun _ => none, fun _ => none, fun _ => ⟨"", "", ""⟩, fun _ => 0⟩ 0
        (initState "task" ⟨[⟨"click", "buy now", "#buy", GoVal.null, [], true⟩]⟩
          emptyMemory))).execCalls = 2 := by
  decide

/-- C4 counterexample: in the iteration that fails a critical step and
retries it successfully, two execution attempts (ExecuteStep calls)
were made but only one ExecutedStep record was appended — the log
length does not count retry attempts. -/
theorem C4_counterexample :
    (stateOf (loopIter defaultConfig
        ⟨fun k => if k = 0 then ⟨id, Except.error "selector not found"⟩ else ⟨id, Except.ok none⟩,
         fun _ => none, fun _ => none, fun _ => none, fun _ => ⟨"", "", ""⟩, fun _ => 0⟩ 0
        (initState "task" ⟨[⟨"type", "enter the address", "#addr", GoVal.null, [], true⟩]⟩
          emptyMemory))).execCalls = 2 ∧
    (stateOf (loopIter defaultConfig
        ⟨fun k => if k = 0 then ⟨id, Except.error "selector not found"⟩ else ⟨id, Except.ok none⟩,
         fun _ => none, fun _ => none, fun _ => none, fun _ => ⟨"", "", ""⟩, fun _ => 0⟩ 0
        (initState "task" ⟨[⟨"type", "enter the address", "#addr", GoVal.null, [], true⟩]⟩
          emptyMemory))).executedSteps.length = 1 := by
  decide

/-- C4 amended: every executing loop iteration appends exactly one
ExecutedStep record; the number of ExecuteStep calls grows by one, or
by two exactly when a failed critical step was retried — so the log
length counts loop-level executions rather than attempts; and every
recovery or replanning request issued during the iteration carries the
full current ExecutedSteps log as its execution history. -/
theorem C4_amended (cfg : Config) (env : ExecEnv) (st : Nat) (s : LoopState)
    (hin : s.currentStepNum < s.plan.steps.length ∧ s.currentStepNum < cfg.maxSteps)
    (ht : ¬ st + cfg.totalTimeout < env.time s.iter) :
    ∃ rec : ExecutedStep,
      (stateOf (loopIter cfg env st s)).executedSteps = s.executedSteps ++ [rec] ∧
      ((stateOf (loopIter cfg env st s)).execCalls = s.execCalls + 1 ∨
        ((stateOf (loopIter cfg env st s)).execCalls = s.execCalls + 2 ∧
          (∃ msg, (env.stepOutcome s.execCalls).result = Except.error msg) ∧
          (s.plan.steps.getD s.currentStepNum defaultStep).critical = true)) ∧
      (∀ req ∈ (stateOf (loopIter cfg env st s)).recoveryRequests,
        req ∈ s.recoveryRequests ∨ req.executedSteps = s.executedSteps ++ [rec]) ∧
      (∀ req ∈ (stateOf (loopIter cfg env st s)).replanRequests,
        req ∈ s.replanRequests ∨ req.executedSteps = s.executedSteps ++ [rec]) := by
  obtain ⟨rec, h1, _, h3, h4, h5⟩ := loopIter_step_effects cfg env st s hin ht
  exact ⟨rec, h1, h3, h4, h5⟩

/-- C4 amended, witnessed on a concrete successful iteration. -/
theorem C4_amended_witness :
    ∃ rec : ExecutedStep,
      (stateOf (loopIter defaultConfig
          ⟨fun _ => ⟨id, Except.ok none⟩, fun _ => none, fun _ => none, fun _ => none,
           fun _ => ⟨"", "", ""⟩, fun _ => 0⟩ 0
          (initState "task" ⟨[⟨"scroll", "scroll down", "", GoVal.null, [], false⟩]⟩
            emptyMemory))).executedSteps =
        (initState "task" ⟨[⟨"scroll", "scroll down", "", GoVal.null, [], false⟩]⟩
          emptyMemory).executedSteps ++ [rec] ∧
      ((stateOf (loopIter defaultConfig
          ⟨fun _ => ⟨id, Except.ok none⟩, fun _ => none, fun _ => none, fun _ => none,
           fun _ => ⟨"", "", ""⟩, fun _ => 0⟩ 0
          (initState "task" ⟨[⟨"scroll", "scroll down", "", GoVal.null, [], false⟩]⟩
            emptyMemory))).execCalls =
          (initState "task" ⟨[⟨"scroll", "scroll down", "", GoVal.null, [], false⟩]⟩
            emptyMemory).execCalls + 1 ∨
        ((stateOf (loopIter defaultConfig
          ⟨fun _ => ⟨id, Except.ok none⟩, fun _ => none, fun _ => none, fun _ => none,
           fun _ => ⟨"", "", ""⟩, fun _ => 0⟩ 0
          (initState "task" ⟨[⟨"scroll", "scroll down", "", GoVal.null, [], false⟩]⟩
            emptyMemory))).execCalls =
          (initState "task" ⟨[⟨"scroll", "scroll down", "", GoVal.null, [], false⟩]⟩
            emptyMemory).execCalls + 2 ∧
          (∃ msg, ((⟨fun _ => ⟨id, Except.ok none⟩, fun _ => none, fun _ => none, fun _ => none,
           fun _ => ⟨"", "", ""⟩, fun _ => 0⟩ : ExecEnv).stepOutcome
            (initState "task" ⟨[⟨"scroll", "scroll down", "", GoVal.null, [], false⟩]⟩
              emptyMemory).execCalls).result = Except.error msg) ∧
          ((initState "task" ⟨[⟨"scroll", "scroll down", "", GoVal.null, [], false⟩]⟩
            emptyMemory).plan.steps.getD
            (initState "task" ⟨[⟨"scroll", "scroll down", "", GoVal.null, [], false⟩]⟩
              emptyMemory).currentStepNum defaultStep).critical = true)) ∧
      (∀ req ∈ (stateOf (loopIter defaultConfig
          ⟨fun _ => ⟨id, Except.ok none⟩, fun _ => none, fun _ => none, fun _ => none,
           fun _ => ⟨"", "", ""⟩, fun _ => 0⟩ 0
          (initState "task" ⟨[⟨"scroll", "scroll down", "", GoVal.null, [], false⟩]⟩
            emptyMemory))).recoveryRequests,
        req ∈ (initState "task" ⟨[⟨"scroll", "scroll down", "", GoVal.null, [], false⟩]⟩
            emptyMemory).recoveryRequests ∨
          req.executedSteps = (initState "task"
            ⟨[⟨"scroll", "scroll down", "", GoVal.null, [], false⟩]⟩
            emptyMemory).executedSteps ++ [rec]) ∧
      (∀ req ∈ (stateOf (loopIter defaultConfig
          ⟨fun _ => ⟨id, Except.ok none⟩, fun _ => none, fun _ => none, fun _ => none,
           fun _ => ⟨"", "", ""⟩, fun _ => 0⟩ 0
          (initState "task" ⟨[⟨"scroll", "scroll down", "", GoVal.null, [], false⟩]⟩
            emptyMemory))).replanRequests,
        req ∈ (initState "task" ⟨[⟨"scroll", "scroll down", "", GoVal.null, [], false⟩]⟩
            emptyMemory).replanRequests ∨
          req.executedSteps = (initState "task"
            ⟨[⟨"scroll", "scroll down", "", GoVal.null, [], false⟩]⟩
            emptyMemory).executedSteps ++ [rec]) :=
  C4_amended defaultConfig
    ⟨fun _ => ⟨id, Except.ok none⟩, fun _ => none, fun _ => none, fun _ => none,
     fun _ => ⟨"", "", ""⟩, fun _ => 0⟩ 0
    (initState "task" ⟨[⟨"scroll", "scroll down", "", GoVal.null, [], false⟩]⟩ emptyMemory)
    (by decide) (by decide)

/-- C5: when the step just executed succeeded, the advanced index is a
multiple of the validation interval, the cooldown has passed, and the
Validator returns a judgment with `IsComplete = true`, the iteration
terminates immediately with `Success = true`, the validator's message
as final state, and `StepsExecuted` equal to the length of
ExecutedSteps at that moment (the just-appended record included) —
independent of how many planned steps remain. -/
theorem C5_validator_complete (cfg : Config) (env : ExecEnv) (st : Nat) (s : LoopState)
    (vr : ValidationResult) (d : Option (List (String × GoVal)))
    (hin : s.currentStepNum < s.plan.steps.length ∧ s.currentStepNum < cfg.maxSteps)
    (ht : ¬ st + cfg.totalTimeout < env.time s.iter)
    (hres : (env.stepOutcome s.execCalls).result = Except.ok d)
    (hmod : (s.currentStepNum + 1) % validationInterval = 0)
    (hcool : cooldownOk (env.time s.iter) s.lastValidationTime = true)
    (hv : env.validation s.validationCalls = some vr) (hc : vr.isComplete = true) :
    ∃ r fin, loopIter cfg env st s = .done r fin ∧ r.success = true ∧
      r.stepsExecuted = s.executedSteps.length + 1 ∧ r.finalState = vr.message ∧
      r.error = none := by
  rw [loopIter_ok cfg env st s d hin ht hres]
  rw [afterStep_complete cfg env st (env.time s.iter)
    { s with
      executedSteps := s.executedSteps ++
        [⟨s.plan.steps.getD s.currentStepNum defaultStep, true, none, env.time s.iter⟩],
      memory := (match d with
        | some dd => updateMemory ((env.stepOutcome s.execCalls).memEffect s.memory) dd
        | none => (env.stepOutcome s.execCalls).memEffect s.memory),
      consecutiveFailures := 0, execCalls := s.execCalls + 1 } true vr
    ⟨rfl, hmod, hcool⟩ hv hc]
  refine ⟨_, _, rfl, rfl, ?_, rfl, rfl⟩
  show (s.executedSteps ++
    [(⟨s.plan.steps.getD s.currentStepNum defaultStep, true, none,
      env.time s.iter⟩ : ExecutedStep)]).length = s.executedSteps.length + 1
  simp

/-- C5 witnessed: with a six-step plan, a success at index 4 followed by
an `is_complete` judgment terminates with `StepsExecuted = 1` (the
records appended so far), not the plan length. -/
theorem C5_validator_complete_witness :
    ∃ r fin, loopIter defaultConfig
        ⟨fun _ => ⟨id, Except.ok none⟩,
         fun _ => none, fun _ => some ⟨true, false, "task already complete", mkRat 9 10⟩,
         fun _ => none, fun _ => ⟨"u", "t", "c"⟩, fun _ => 0⟩ 0
        { initState "task"
            ⟨List.replicate 6 ⟨"wait", "wait for page", "", GoVal.null, [], false⟩⟩
            emptyMemory with currentStepNum := 4 } = .done r fin ∧
      r.success = true ∧
      r.stepsExecuted = ({ initState "task"
          ⟨List.replicate 6 ⟨"wait", "wait for page", "", GoVal.null, [], false⟩⟩
          emptyMemory with currentStepNum := 4 } : LoopState).executedSteps.length + 1 ∧
      r.finalState = (⟨true, false, "task already complete", mkRat 9 10⟩ : ValidationResult).message ∧
      r.error = none :=
  C5_validator_complete defaultConfig
    ⟨fun _ => ⟨id, Except.ok none⟩,
     fun _ => none, fun _ => some ⟨true, false, "task already complete", mkRat 9 10⟩,
     fun _ => none, fun _ => ⟨"u", "t", "c"⟩, fun _ => 0⟩ 0
    { initState "task"
        ⟨List.replicate 6 ⟨"wait", "wait for page", "", GoVal.null, [], false⟩⟩
        emptyMemory with currentStepNum := 4 }
    ⟨true, false, "task already complete", mkRat 9 10⟩ none
    (by decide) (by decide) rfl (by decide) (by decide) rfl rfl

theorem criticalOrSkip_validation_gate (cfg : Config) (env : ExecEnv) (st now : Nat)
    (s : LoopState) (step : Step)
    (h : (stateOf (criticalOrSkip cfg env st now s step)).validationCalls ≠ s.validationCalls) :
    (s.currentStepNum + 1) % validationInterval = 0 ∧
    cooldownOk now s.lastValidationTime = true ∧
    step.critical = true ∧
    ∃ d, (env.stepOutcome s.execCalls).result = Except.ok d := by
  by_cases hc : step.critical = true
  · cases hres : (env.stepOutcome s.execCalls).result with
    | ok d =>
      rw [criticalOrSkip_retry_ok cfg env st now s step d hc hres] at h
      obtain ⟨_, hmod, hcool⟩ := afterStep_validation_gate cfg env st now _ true h
      exact ⟨hmod, hcool, hc, d, rfl⟩
    | error rmsg =>
      rw [criticalOrSkip_retry_fail cfg env st now s step rmsg hc hres] at h
      exact absurd rfl h
  · have hc' : step.critical = false := by revert hc; cases step.critical <;> simp
    rw [criticalOrSkip_noncrit cfg env st now s step hc'] at h
    obtain ⟨hb, _, _⟩ := afterStep_validation_gate cfg env st now s false h
    exact absurd hb (by simp)

/-- C6: the Validator is invoked during an iteration (the validation
call count changes) only when the advanced `CurrentStepNum` is an exact
multiple of the validation interval — hence never before
`validationInterval` steps of the current plan have completed — only
when the 10-second cooldown since the last obtained judgment has
elapsed, and only when the executed step succeeded or was a critical
step whose retry succeeded. -/
theorem C6_validation_gate (cfg : Config) (env : ExecEnv) (st : Nat) (s : LoopState)
    (h : (stateOf (loopIter cfg env st s)).validationCalls ≠ s.validationCalls) :
    (s.currentStepNum + 1) % validationInterval = 0 ∧
    validationInterval ≤ s.currentStepNum + 1 ∧
    cooldownOk (env.time s.iter) s.lastValidationTime = true ∧
    ((∃ d, (env.stepOutcome s.execCalls).result = Except.ok d) ∨
      ((s.plan.steps.getD s.currentStepNum defaultStep).critical = true ∧
        ∃ d, (env.stepOutcome (s.execCalls + 1)).result = Except.ok d)) := by
  by_cases hinq : s.currentStepNum < s.plan.steps.length ∧ s.currentStepNum < cfg.maxSteps
  · by_cases ht0 : st + cfg.totalTimeout < env.time s.iter
    · rw [loopIter_timeout cfg env st s hinq ht0] at h
      exact absurd rfl h
    · cases hres : (env.stepOutcome s.execCalls).result with
      | ok d =>
        rw [loopIter_ok cfg env st s d hinq ht0 hres] at h
        obtain ⟨_, hmod, hcool⟩ := afterStep_validation_gate cfg env st (env.time s.iter) _ true h
        have hmod' : (s.currentStepNum + 1) % 5 = 0 := hmod
        exact ⟨hmod, by show 5 ≤ s.currentStepNum + 1; omega, hcool, Or.inl ⟨d, rfl⟩⟩
      | error msg =>
        by_cases hcf : maxConsecutiveFailures ≤ s.consecutiveFailures + 1
        · cases hrec : env.recovery s.recoveryCalls with
          | some rplan =>
            rw [loopIter_fail_recovery_some cfg env st s msg rplan hinq ht0 hres hcf hrec] at h
            exact absurd rfl h
          | none =>
            rw [loopIter_fail_recovery_none cfg env st s msg hinq ht0 hres hcf hrec] at h
            obtain ⟨hmod, hcool, hcrit, d, hres2⟩ :=
              criticalOrSkip_validation_gate cfg env st (env.time s.iter) _ _ h
            have hmod' : (s.currentStepNum + 1) % 5 = 0 := hmod
            exact ⟨hmod, by show 5 ≤ s.currentStepNum + 1; omega, hcool,
              Or.inr ⟨hcrit, d, hres2⟩⟩
        · rw [loopIter_fail_below cfg env st s msg hinq ht0 hres hcf] at h
          obtain ⟨hmod, hcool, hcrit, d, hres2⟩ :=
            criticalOrSkip_validation_gate cfg env st (env.time s.iter) _ _ h
          have hmod' : (s.currentStepNum + 1) % 5 = 0 := hmod
          exact ⟨hmod, by show 5 ≤ s.currentStepNum + 1; omega, hcool,
            Or.inr ⟨hcrit, d, hres2⟩⟩
  · rw [loopIter_exit cfg env st s hinq] at h
    exact absurd rfl h

/-- C6 witnessed: a successful step advancing the index to 5 with the
cooldown clear invokes the Validator, and the gate facts hold. -/
theorem C6_validation_gate_witness :
    ((4 : Nat) + 1) % validationInterval = 0 ∧
    validationInterval ≤ 4 + 1 ∧
    cooldownOk 0 none = true ∧
    ((∃ d, ((⟨fun _ => ⟨id, Except.ok none⟩,
        fun _ => none, fun _ => some ⟨false, false, "keep going", mkRat 1 2⟩,
        fun _ => none, fun _ => ⟨"u", "t", "c"⟩, fun _ => 0⟩ : ExecEnv).stepOutcome 0).result =
        Except.ok d) ∨
      (((⟨List.replicate 6 ⟨"wait", "wait for page", "", GoVal.null, [], false⟩⟩ : Plan).steps.getD
          4 defaultStep).critical = true ∧
        ∃ d, ((⟨fun _ => ⟨id, Except.ok none⟩,
          fun _ => none, fun _ => some ⟨false, false, "keep going", mkRat 1 2⟩,
          fun _ => none, fun _ => ⟨"u", "t", "c"⟩, fun _ => 0⟩ : ExecEnv).stepOutcome (0 + 1)).result =
          Except.ok d)) :=
  C6_validation_gate defaultConfig
    ⟨fun _ => ⟨id, Except.ok none⟩,
     fun _ => none, fun _ => some ⟨false, false, "keep going", mkRat 1 2⟩,
     fun _ => none, fun _ => ⟨"u", "t", "c"⟩, fun _ => 0⟩ 0
    { initState "task"
        ⟨List.replicate 6 ⟨"wait", "wait for page", "", GoVal.null, [], false⟩⟩
        emptyMemory with currentStepNum := 4 }
    (by decide)

/-- C10 counterexample: `executeRequestAuth` mutates the shared memory
directly during step execution — the entered email lands in
`UserCredentials` — while its returned result declares no data at all,
so the write cannot have come from the Orchestrator's post-success
merge. -/
theorem C10_counterexample :
    (executeRequestAuth ⟨"login", "log in to the site", "", GoVal.null, [], true⟩ emptyMemory
        ⟨"user@example.com\n", some "hunter2", fun _ => true, fun _ => true,
         fun _ => true, fun _ => true, ⟨"https://www.amazon.in/ap/signin", "Sign in", ""⟩⟩).1.userCredentials =
      [("email", "user@example.com")] ∧
    (executeRequestAuth ⟨"login", "log in to the site", "", GoVal.null, [], true⟩ emptyMemory
        ⟨"user@example.com\n", some "hunter2", fun _ => true, fun _ => true,
         fun _ => true, fun _ => true, ⟨"https://www.amazon.in/ap/signin", "Sign in", ""⟩⟩).2 =
      Except.ok ⟨true, "Login credentials entered and submitted", none, none⟩ ∧
    emptyMemory.userCredentials = [] := by
  exact ⟨rfl, rfl, rfl⟩

/-- C10 amended: the Orchestrator merges declared result data into
Memory only after a successful step — on success with data the new
memory is `updateMemory` of the handler-affected memory, on success
without data and on failure no merge happens — but Step Executor
handlers do mutate Memory directly during execution: whenever
`executeRequestAuth` runs with auth type "full", a non-empty email and
a selector that accepts input, it records the email in
`UserCredentials` itself. -/
theorem C10_amended (cfg : Config) (env : ExecEnv) (st : Nat) (s : LoopState)
    (hin : s.currentStepNum < s.plan.steps.length ∧ s.currentStepNum < cfg.maxSteps)
    (ht : ¬ st + cfg.totalTimeout < env.time s.iter) :
    (∀ dd, (env.stepOutcome s.execCalls).result = Except.ok (some dd) →
      (stateOf (loopIter cfg env st s)).memory =
        updateMemory ((env.stepOutcome s.execCalls).memEffect s.memory) dd) ∧
    ((env.stepOutcome s.execCalls).result = Except.ok none →
      (stateOf (loopIter cfg env st s)).memory =
        (env.stepOutcome s.execCalls).memEffect s.memory) ∧
    (∀ msg, (env.stepOutcome s.execCalls).result = Except.error msg →
      ((stateOf (loopIter cfg env st s)).memory =
          (env.stepOutcome s.execCalls).memEffect s.memory ∨
        (stateOf (loopIter cfg env st s)).memory =
          (env.stepOutcome (s.execCalls + 1)).memEffect
            ((env.stepOutcome s.execCalls).memEffect s.memory))) ∧
    (∀ (step : Step) (mem : AgentMemory) (aenv : AuthEnv),
      authTypeOf step = "full" → trimSpaceGo aenv.emailInput ≠ "" →
      (∃ sel, probeSelectors aenv.waitOk aenv.typeOk emailSelectors = some sel) →
      (executeRequestAuth step mem aenv).1.userCredentials =
        setAssoc mem.userCredentials "email" (trimSpaceGo aenv.emailInput)) := by
  refine ⟨?_, ?_, ?_, ?_⟩
  · intro dd hres
    rw [loopIter_ok cfg env st s (some dd) hin ht hres]
    obtain ⟨_, a2, _, _, _, _, _, _⟩ := afterStep_state cfg env st (env.time s.iter) _ true
    exact a2
  · intro hres
    rw [loopIter_ok cfg env st s none hin ht hres]
    obtain ⟨_, a2, _, _, _, _, _, _⟩ := afterStep_state cfg env st (env.time s.iter) _ true
    exact a2
  · intro msg hres
    by_cases hcf : maxConsecutiveFailures ≤ s.consecutiveFailures + 1
    · cases hrec : env.recovery s.recoveryCalls with
      | some rplan =>
        rw [loopIter_fail_recovery_some cfg env st s msg rplan hin ht hres hcf hrec]
        exact Or.inl rfl
      | none =>
        rw [loopIter_fail_recovery_none cfg env st s msg hin ht hres hcf hrec]
        by_cases hc : (s.plan.steps.getD s.currentStepNum defaultStep).critical = true
        · cases hres2 : (env.stepOutcome (s.execCalls + 1)).result with
          | ok d2 =>
            rw [criticalOrSkip_retry_ok _ _ _ _ _ _ d2 hc hres2]
            obtain ⟨_, a2, _, _, _, _, _, _⟩ :=
              afterStep_state cfg env st (env.time s.iter) _ true
            exact Or.inr a2
          | error rmsg =>
            rw [criticalOrSkip_retry_fail _ _ _ _ _ _ rmsg hc hres2]
            exact Or.inr rfl
        · have hc' : (s.plan.steps.getD s.currentStepNum defaultStep).critical = false := by
            revert hc; cases (s.plan.steps.getD s.currentStepNum defaultStep).critical <;> simp
          rw [criticalOrSkip_noncrit _ _ _ _ _ _ hc']
          obtain ⟨_, a2, _, _, _, _, _, _⟩ :=
            afterStep_state cfg env st (env.time s.iter) _ false
          exact Or.inl a2
    · rw [loopIter_fail_below cfg env st s msg hin ht hres hcf]
      by_cases hc : (s.plan.steps.getD s.currentStepNum defaultStep).critical = true
      · cases hres2 : (env.stepOutcome (s.execCalls + 1)).result with
        | ok d2 =>
          rw [criticalOrSkip_retry_ok _ _ _ _ _ _ d2 hc hres2]
          obtain ⟨_, a2, _, _, _, _, _, _⟩ :=
            afterStep_state cfg env st (env.time s.iter) _ true
          exact Or.inr a2
        | error rmsg =>
          rw [criticalOrSkip_retry_fail _ _ _ _ _ _ rmsg hc hres2]
          exact Or.inr rfl
      · have hc' : (s.plan.steps.getD s.currentStepNum defaultStep).critical = false := by
          revert hc; cases (s.plan.steps.getD s.currentStepNum defaultStep).critical <;> simp
        rw [criticalOrSkip_noncrit _ _ _ _ _ _ hc']
        obtain ⟨_, a2, _, _, _, _, _, _⟩ :=
          afterStep_state cfg env st (env.time s.iter) _ false
        exact Or.inl a2
  · intro step mem aenv hauth hne hprobe
    obtain ⟨sel, hsel⟩ := hprobe
    unfold executeRequestAuth
    rw [hauth]
    simp only [hsel]
    split
    · split
      · split
        · rfl
        · next h => exact absurd (by simp [hne]) h
      · split
        · split
          · rfl
          · next h => exact absurd (by simp [hne]) h
        · split
          · rfl
          · next h => exact absurd (by simp [hne]) h
    · split
      · rfl
      · next h => exact absurd (by simp [hne]) h

/-- C10 amended, witnessed: a successful step that declares a product
URL has that data merged into memory through `updateMemory`. -/
theorem C10_amended_witness :
    (stateOf (loopIter defaultConfig
        ⟨fun _ => ⟨id, Except.ok (some [("product_url", GoVal.str "https://www.amazon.in/dp/X")])⟩,
         fun _ => none, fun _ => none, fun _ => none, fun _ => ⟨"", "", ""⟩, fun _ => 0⟩ 0
        (initState "task"
          ⟨[⟨"select_product", "pick the product", "", GoVal.str "cheapest", [], false⟩]⟩
          emptyMemory))).memory =
      updateMemory
        (((⟨fun _ => ⟨id, Except.ok (some [("product_url", GoVal.str "https://www.amazon.in/dp/X")])⟩,
            fun _ => none, fun _ => none, fun _ => none, fun _ => ⟨"", "", ""⟩,
            fun _ => 0⟩ : ExecEnv).stepOutcome
          (initState "task"
            ⟨[⟨"select_product", "pick the product", "", GoVal.str "cheapest", [], false⟩]⟩
            emptyMemory).execCalls).memEffect
          (initState "task"
            ⟨[⟨"select_product", "pick the product", "", GoVal.str "cheapest", [], false⟩]⟩
            emptyMemory).memory)
        [("product_url", GoVal.str "https://www.amazon.in/dp/X")] :=
  (C10_amended defaultConfig
    ⟨fun _ => ⟨id, Except.ok (some [("product_url", GoVal.str "https://www.amazon.in/dp/X")])⟩,
     fun _ => none, fun _ => none, fun _ => none, fun _ => ⟨"", "", ""⟩, fun _ => 0⟩ 0
    (initState "task"
      ⟨[⟨"select_product", "pick the product", "", GoVal.str "cheapest", [], false⟩]⟩
      emptyMemory)
    (by decide) (by decide)).1
    [("product_url", GoVal.str "https://www.amazon.in/dp/X")] rfl
